import Mathlib

/-
Verification of the TodoApp file-backed persistence core: the domain entity
(src/domain/todo.py), its priority enum (src/domain/priority.py), the domain
exceptions (src/domain/exceptions.py), the safe-file utilities
(src/infrastructure/file_handler.py) and the two document stores
(src/infrastructure/json_repository.py, src/infrastructure/xml_repository.py).

Modelling conventions:
- A Python datetime is represented by its ISO-8601 rendering: the structure
  DateTime holds the string that isoformat would return, and fromisoformat
  wraps a string back.  Real isoformat output is never the empty string.
- The filesystem is a partial map from path strings to file contents.  File
  contents of the data files are represented structurally: a serialized JSON
  object document, a serialized XML todos document, and degenerate cases
  (blank file, valid JSON that is not an object, arbitrary malformed bytes).
  json.dumps and ET.tostring are deterministic and injective, so equality of
  these content values models byte-for-byte file equality.
- Failures of the underlying platform are injected through an Env oracle:
  readErr makes file reads raise an OSError, tmpWriteErr makes the temp-file
  write in safe_write raise, replaceErr makes the final rename/replace raise,
  and win selects the os.name == "nt" branch of safe_write.
- Python exceptions are values of the PyExc inductive; an operation returns
  Except PyExc together with the resulting filesystem.
-/

deriving instance DecidableEq for Except

namespace TodoApp

/-- Python exception values raised or wrapped by the persistence layer. -/
inductive PyExc where
  | repositoryError (msg : String)
  | todoNotFound (id : String)
  | attributeError (msg : String)
  | valueError (msg : String)
  | typeError (msg : String)
  | validationError (msg : String)
  | osError (msg : String)
deriving DecidableEq

/-- The str rendering of an exception, as interpolated by f-strings.
RepositoryError.__init__ prepends the fixed marker, and TodoNotFoundError
formats the offending id into its message (src/domain/exceptions.py). -/
def PyExc.str : PyExc → String
  | .repositoryError m => "Repository operation failed: " ++ m
  | .todoNotFound i => "Todo with id \x27" ++ i ++ "\x27 not found"
  | .attributeError m => m
  | .valueError m => m
  | .typeError m => m
  | .validationError m => m
  | .osError m => m

/-- True exactly for the wrapped repository error kind. -/
def PyExc.isRepositoryError : PyExc → Bool
  | .repositoryError _ => true
  | _ => false

/-- Priority enum from src/domain/priority.py. -/
inductive Priority where
  | low
  | medium
  | high
deriving DecidableEq

/-- The .value string of a Priority member. -/
def Priority.value : Priority → String
  | .low => "low"
  | .medium => "medium"
  | .high => "high"

/-- Enum lookup by value, Priority(s): some member on a valid value string,
none when the lookup would raise ValueError. -/
def Priority.fromValue (s : String) : Option Priority :=
  if s = "low" then some .low
  else if s = "medium" then some .medium
  else if s = "high" then some .high
  else none

/-- A datetime value, modelled by the string its isoformat returns. -/
structure DateTime where
  iso : String
deriving DecidableEq

/-- datetime.isoformat. -/
def DateTime.isoformat (d : DateTime) : String := d.iso

/-- datetime.fromisoformat on a string produced by isoformat. -/
def DateTime.fromisoformat (s : String) : DateTime := ⟨s⟩

/-- The Todo entity of src/domain/todo.py (a pydantic BaseModel). -/
structure Todo where
  id : String
  title : String
  description : Option String
  completed : Bool
  priority : Priority
  created_at : DateTime
  updated_at : Option DateTime
deriving DecidableEq

/-- Python str.strip(): the string without leading and trailing whitespace. -/
def pyStrip (s : String) : String :=
  (((s.toList.dropWhile Char.isWhitespace).reverse.dropWhile
      Char.isWhitespace).reverse).asString

/-- Python str.lower() on the ASCII values appearing in this codebase. -/
def pyLower (s : String) : String := (s.toList.map Char.toLower).asString

/-- Whether the first list occurs as a contiguous run inside the second. -/
def containsRun (needle hay : List Char) : Bool :=
  (List.range (hay.length + 1)).any (fun i => needle.isPrefixOf (hay.drop i))

/-- Whether one string occurs inside another (Python in on str). -/
def strContains (hay needle : String) : Bool :=
  containsRun needle.toList hay.toList

/-- The validate_title field validator of src/domain/todo.py: rejects an
empty or all-whitespace title and returns the stripped title. -/
def validate_title (v : String) : Except PyExc String :=
  if pyStrip v = "" then
    .error (.validationError "Title cannot be empty or whitespace")
  else
    .ok (pyStrip v)

/-- Whether an optional description exceeds the max_length 1000 constraint. -/
def descriptionOverLimit : Option String → Bool
  | some d => d.length > 1000
  | none => false

/-- Pydantic construction Todo(...): the max_length constraints of the Field
declarations run before the validate_title field validator. -/
def todoNew (id : String) (title : String) (description : Option String)
    (completed : Bool) (priority : Priority) (created_at : DateTime)
    (updated_at : Option DateTime) : Except PyExc Todo :=
  if title.length > 200 then
    .error (.validationError "String should have at most 200 characters")
  else if descriptionOverLimit description then
    .error (.validationError "String should have at most 1000 characters")
  else
    match validate_title title with
    | .error e => .error e
    | .ok t => .ok ⟨id, t, description, completed, priority, created_at, updated_at⟩

/-- Todo.mark_completed: plain attribute assignments, no re-validation. -/
def Todo.mark_completed (t : Todo) (now : DateTime) : Todo :=
  { t with completed := true, updated_at := some now }

/-- Todo.mark_incomplete. -/
def Todo.mark_incomplete (t : Todo) (now : DateTime) : Todo :=
  { t with completed := false, updated_at := some now }

/-- Todo.update_title: a plain attribute assignment.  The model declares no
validate_assignment configuration, so pydantic does not re-run
validate_title here; the new title is stored verbatim. -/
def Todo.update_title (t : Todo) (new_title : String) (now : DateTime) : Todo :=
  { t with title := new_title, updated_at := some now }

/-- Todo.update_description: plain assignment, no re-validation. -/
def Todo.update_description (t : Todo) (new_description : Option String)
    (now : DateTime) : Todo :=
  { t with description := new_description, updated_at := some now }

/-- Todo.update_priority: plain assignment. -/
def Todo.update_priority (t : Todo) (new_priority : Priority)
    (now : DateTime) : Todo :=
  { t with priority := new_priority, updated_at := some now }

/-- A task as it sits inside the parsed JSON document: the dict built by
JsonTodoRepository._todo_to_dict.  description and updated_at may be null. -/
structure TodoDict where
  id : String
  title : String
  description : Option String
  completed : Bool
  priority : String
  created_at : String
  updated_at : Option String
deriving DecidableEq

/-- JsonTodoRepository._todo_to_dict. -/
def todo_to_dict (t : Todo) : TodoDict :=
  { id := t.id
    title := t.title
    description := t.description
    completed := t.completed
    priority := t.priority.value
    created_at := t.created_at.isoformat
    updated_at := t.updated_at.map DateTime.isoformat }

/-- JsonTodoRepository._dict_to_todo.  The stored priority string is coerced
back to the enum by pydantic (a bad value is a validation failure), and
updated_at is parsed only when the stored value is truthy. -/
def dict_to_todo (d : TodoDict) : Except PyExc Todo :=
  match Priority.fromValue d.priority with
  | none => .error (.validationError "Input should be a valid Priority")
  | some p =>
    todoNew d.id d.title d.description d.completed p
      (DateTime.fromisoformat d.created_at)
      (match d.updated_at with
       | some s => if s = "" then none else some (DateTime.fromisoformat s)
       | none => none)

/-- A leaf child element of a todo element (title, description, completed,
priority, created_at, updated_at), carrying its tag and optional text. -/
structure XmlLeaf where
  tag : String
  text : Option String
deriving DecidableEq

/-- A todo XML element: tag, attributes and flat list of leaf children. -/
structure XmlTodoElem where
  tag : String
  attrs : List (String × String)
  children : List XmlLeaf
deriving DecidableEq

/-- Element.get on the attribute dictionary. -/
def xmlGetAttr (e : XmlTodoElem) (k : String) : Option String :=
  (e.attrs.find? (fun p => p.1 = k)).map (fun p => p.2)

/-- Element.find on a tag name: first child with that tag, if any. -/
def xmlFind (e : XmlTodoElem) (tag : String) : Option XmlLeaf :=
  e.children.find? (fun l => l.tag = tag)

/-- XmlTodoRepository._todo_to_xml_element.  The description child is only
emitted when the description is truthy (not None and not the empty string);
the updated_at child only when updated_at is not None. -/
def todo_to_xml_element (t : Todo) : XmlTodoElem :=
  { tag := "todo"
    attrs := [("id", t.id)]
    children :=
      [⟨"title", some t.title⟩]
      ++ (match t.description with
          | some d => if d = "" then [] else [⟨"description", some d⟩]
          | none => [])
      ++ [⟨"completed", some (if t.completed then "true" else "false")⟩,
          ⟨"priority", some t.priority.value⟩,
          ⟨"created_at", some t.created_at.isoformat⟩]
      ++ (match t.updated_at with
          | some u => [⟨"updated_at", some u.isoformat⟩]
          | none => []) }

/-- The AttributeError raised by accessing .text on a None find result. -/
def noneTextExc : PyExc :=
  .attributeError "\x27NoneType\x27 object has no attribute \x27text\x27"

/-- Evaluation of element.find(tag).text: AttributeError when find returned
None, otherwise the (possibly absent) text of the child. -/
def elemText (r : Option XmlLeaf) : Except PyExc (Option String) :=
  match r with
  | none => .error noneTextExc
  | some l => .ok l.text

/-- XmlTodoRepository._xml_element_to_todo, statement by statement, with the
exact exception raised at each failing attribute access or conversion. -/
def xml_element_to_todo (e : XmlTodoElem) : Except PyExc Todo := do
  let todo_id := xmlGetAttr e "id"
  let title ← elemText (xmlFind e "title")
  let description :=
    match xmlFind e "description" with
    | some l => l.text
    | none => none
  let completedTxt ← elemText (xmlFind e "completed")
  let completedStr ←
    match completedTxt with
    | none =>
      .error (.attributeError "\x27NoneType\x27 object has no attribute \x27lower\x27")
    | some s => .ok (pyLower s)
  let completed := completedStr = "true"
  let priorityTxt ← elemText (xmlFind e "priority")
  let priority ←
    match priorityTxt with
    | none => .error (.valueError "None is not a valid Priority")
    | some s =>
      match Priority.fromValue s with
      | some p => .ok p
      | none => .error (.valueError ("\x27" ++ s ++ "\x27 is not a valid Priority"))
  let createdTxt ← elemText (xmlFind e "created_at")
  let created_at ←
    match createdTxt with
    | none => .error (.typeError "fromisoformat: argument must be str")
    | some s => .ok (DateTime.fromisoformat s)
  let updated_at ←
    match xmlFind e "updated_at" with
    | none => .ok (none : Option DateTime)
    | some l =>
      match l.text with
      | none => .error (.typeError "fromisoformat: argument must be str")
      | some s => .ok (some (DateTime.fromisoformat s))
  match todo_id with
  | none => .error (.validationError "id: Input should be a valid string")
  | some i =>
    match title with
    | none => .error (.validationError "title: Input should be a valid string")
    | some ti => todoNew i ti description completed priority created_at updated_at

/-- A Todo that satisfies the pydantic model constraints as stored: trimmed
non-empty title within 200 characters, description within 1000 characters,
and datetime fields whose ISO renderings are the non-empty strings real
isoformat produces. -/
def validTodo (t : Todo) : Bool :=
  decide (pyStrip t.title = t.title) && decide (t.title ≠ "")
    && decide (t.title.length ≤ 200)
    && (match t.description with
        | some d => decide (d.length ≤ 1000)
        | none => true)
    && decide (t.created_at.iso ≠ "")
    && (match t.updated_at with
        | some u => decide (u.iso ≠ "")
        | none => true)

/-- A filesystem: a partial map from path strings to file contents. -/
def FS (α : Type) : Type := String → Option α

/-- Content of the file at a path, none when the file does not exist. -/
def fsGet {α : Type} (fs : FS α) (p : String) : Option α := fs p

/-- Write (create or overwrite) the file at a path. -/
def fsSet {α : Type} (fs : FS α) (p : String) (v : α) : FS α :=
  fun q => if q = p then some v else fs q

/-- Remove the file at a path (Path.unlink). -/
def fsErase {α : Type} (fs : FS α) (p : String) : FS α :=
  fun q => if q = p then none else fs q

/-- Path.exists. -/
def fsExists {α : Type} (fs : FS α) (p : String) : Bool := (fs p).isSome

/-- The empty directory. -/
def fsEmpty {α : Type} : FS α := fun _ => none

/-- Index of the dot starting the pathlib suffix of a file name: the last
dot, provided it is neither the leading character nor the final one;
otherwise the length of the name (empty suffix). -/
def extIndex (cs : List Char) : Nat :=
  match ((List.range cs.length).filter
      (fun i => decide (cs.getD i ' ' = '.'))).getLast? with
  | some i => if 0 < i ∧ i + 1 < cs.length then i else cs.length
  | none => cs.length

/-- Path.stem together with the parent-relative name before the suffix. -/
def pathStem (p : String) : String :=
  (p.toList.take (extIndex p.toList)).asString

/-- Path.suffix. -/
def pathSuffix (p : String) : String :=
  (p.toList.drop (extIndex p.toList)).asString

/-- The temporary path used by FileHandler.safe_write:
file_path.with_suffix(file_path.suffix + ".tmp"). -/
def tmpPath (p : String) : String :=
  pathStem p ++ (pathSuffix p ++ ".tmp")

/-- The backup path produced by FileHandler.create_backup for a given
strftime timestamp: stem, fixed marker, timestamp, original suffix. -/
def backupPath (p : String) (ts : String) : String :=
  pathStem p ++ ("_backup_" ++ ts ++ pathSuffix p)

/-- The platform and failure-injection oracle for one repository operation. -/
structure Env where
  now : String
  readErr : Option String
  tmpWriteErr : Bool
  replaceErr : Bool
  win : Bool
deriving DecidableEq

/-- No injected failure: reads, temp writes and replaces all succeed. -/
def Env.happy (e : Env) : Bool :=
  e.readErr.isNone && !e.tmpWriteErr && !e.replaceErr

/-- FileHandler.safe_write: write the content to the sibling .tmp file, then
replace the target with it (on Windows, first unlink an existing target).
On any failure the except block removes the temp file if present and
re-raises; the returned option is the propagated error message. -/
def safeWrite {α : Type} (env : Env) (fs : FS α) (path : String) (content : α) :
    FS α × Option String :=
  let tp := tmpPath path
  if env.tmpWriteErr then
    (fsErase fs tp, some "temp write failed")
  else
    let fs1 := fsSet fs tp content
    let fs2 := if env.win && fsExists fs1 path then fsErase fs1 path else fs1
    if env.replaceErr then
      (fsErase fs2 tp, some "replace failed")
    else
      (fsSet (fsErase fs2 tp) path content, none)

/-- Content of a data file.  jsonDoc and xmlDoc are the serialized forms the
stores themselves write; the other constructors model degenerate files. -/
inductive Content where
  | jsonDoc (d : List (String × TodoDict))
  | jsonNonDict
  | xmlDoc (d : List XmlTodoElem)
  | blank
  | raw (s : String)
deriving DecidableEq

/-- Lookup in an insertion-ordered dict (the parsed JSON object). -/
def dictGet {α : Type} (d : List (String × α)) (k : String) : Option α :=
  (d.find? (fun p => p.1 = k)).map (fun p => p.2)

/-- Python dict assignment d[k] = v: replace in place, or append when new. -/
def dictSet {α : Type} : List (String × α) → String → α → List (String × α)
  | [], k, v => [(k, v)]
  | (k1, v1) :: rest, k, v =>
    if k1 = k then (k, v) :: rest else (k1, v1) :: dictSet rest k v

/-- Python del d[k]: drop the first (for a dict, only) entry with the key. -/
def dictErase {α : Type} : List (String × α) → String → List (String × α)
  | [], _ => []
  | (k1, v1) :: rest, k =>
    if k1 = k then rest else (k1, v1) :: dictErase rest k

/-- Key membership in the dict. -/
def dictHas {α : Type} (d : List (String × α)) (k : String) : Bool :=
  (dictGet d k).isSome

/-- JsonTodoRepository._load_all_todos: an absent file is the empty dict, a
blank file is the empty dict, a parsed non-object raises the repository
error directly, a JSONDecodeError is re-raised as the repository error, and
a read that the platform fails surfaces as a raw OSError. -/
def jsonLoadAll (env : Env) (fs : FS Content) (path : String) :
    Except PyExc (List (String × TodoDict)) :=
  if fsExists fs path then
    match env.readErr with
    | some m => .error (.osError m)
    | none =>
      match fsGet fs path with
      | some (Content.jsonDoc d) => .ok d
      | some Content.blank => .ok []
      | some Content.jsonNonDict =>
        .error (.repositoryError "Invalid JSON format: expected object")
      | some (Content.xmlDoc _) =>
        .error (.repositoryError "Invalid JSON format: Expecting value")
      | some (Content.raw s) =>
        .error (.repositoryError ("Invalid JSON format: " ++ s))
      | none => .ok []
  else .ok []

/-- The persist step shared by both stores: create_backup when the data
file exists (a copy under the timestamped backup name), then safe_write
the new serialized content. -/
def backupThenWrite (env : Env) (fs : FS Content) (path : String)
    (c : Content) : FS Content × Option String :=
  let fs1 :=
    match fsGet fs path with
    | some old => fsSet fs (backupPath path env.now) old
    | none => fs
  safeWrite env fs1 path c

/-- JsonTodoRepository._save_all_todos: back up an existing file, then write
the serialized document atomically; any failure is re-raised as the
repository error. -/
def jsonSaveAll (env : Env) (fs : FS Content) (path : String)
    (d : List (String × TodoDict)) : FS Content × Except PyExc Unit :=
  match backupThenWrite env fs path (Content.jsonDoc d) with
  | (fs2, some m) =>
    (fs2, .error (.repositoryError ("Failed to write JSON file: " ++ m)))
  | (fs2, none) => (fs2, .ok ())

/-- The except-Exception wrapper used by every public repository method. -/
def wrapExc (ctx : String) (e : PyExc) : PyExc :=
  .repositoryError (ctx ++ e.str)

/-- JsonTodoRepository.save. -/
def jsonSave (env : Env) (fs : FS Content) (path : String) (t : Todo) :
    FS Content × Except PyExc Unit :=
  match jsonLoadAll env fs path with
  | .error e => (fs, .error (wrapExc "Failed to save todo: " e))
  | .ok d =>
    match jsonSaveAll env fs path (dictSet d t.id (todo_to_dict t)) with
    | (fs2, .error e) => (fs2, .error (wrapExc "Failed to save todo: " e))
    | (fs2, .ok _) => (fs2, .ok ())

/-- JsonTodoRepository.find_by_id. -/
def jsonFindById (env : Env) (fs : FS Content) (path : String) (id : String) :
    FS Content × Except PyExc (Option Todo) :=
  match jsonLoadAll env fs path with
  | .error e => (fs, .error (wrapExc "Failed to find todo: " e))
  | .ok d =>
    match dictGet d id with
    | none => (fs, .ok none)
    | some td =>
      match dict_to_todo td with
      | .error e => (fs, .error (wrapExc "Failed to find todo: " e))
      | .ok t => (fs, .ok (some t))

/-- Decoding of every record value, in document order (the comprehension in
find_all). -/
def decodeAll : List TodoDict → Except PyExc (List Todo)
  | [] => .ok []
  | td :: rest =>
    match dict_to_todo td with
    | .error e => .error e
    | .ok t =>
      match decodeAll rest with
      | .error e => .error e
      | .ok ts => .ok (t :: ts)

/-- JsonTodoRepository.find_all. -/
def jsonFindAll (env : Env) (fs : FS Content) (path : String) :
    FS Content × Except PyExc (List Todo) :=
  match jsonLoadAll env fs path with
  | .error e => (fs, .error (wrapExc "Failed to load todos: " e))
  | .ok d =>
    match decodeAll (d.map (fun p => p.2)) with
    | .error e => (fs, .error (wrapExc "Failed to load todos: " e))
    | .ok ts => (fs, .ok ts)

/-- JsonTodoRepository.delete. -/
def jsonDelete (env : Env) (fs : FS Content) (path : String) (id : String) :
    FS Content × Except PyExc Bool :=
  match jsonLoadAll env fs path with
  | .error e => (fs, .error (wrapExc "Failed to delete todo: " e))
  | .ok d =>
    if dictHas d id then
      match jsonSaveAll env fs path (dictErase d id) with
      | (fs2, .error e) => (fs2, .error (wrapExc "Failed to delete todo: " e))
      | (fs2, .ok _) => (fs2, .ok true)
    else (fs, .ok false)

/-- JsonTodoRepository.exists: find_by_id is not None. -/
def jsonExistsOp (env : Env) (fs : FS Content) (path : String) (id : String) :
    FS Content × Except PyExc Bool :=
  match jsonFindById env fs path id with
  | (fs2, .error e) => (fs2, .error e)
  | (fs2, .ok r) => (fs2, .ok r.isSome)

/-- JsonTodoRepository.update: TodoNotFoundError when the id is absent,
otherwise exactly save. -/
def jsonUpdate (env : Env) (fs : FS Content) (path : String) (t : Todo) :
    FS Content × Except PyExc Unit :=
  match jsonExistsOp env fs path t.id with
  | (fs2, .error e) => (fs2, .error e)
  | (fs2, .ok false) => (fs2, .error (.todoNotFound t.id))
  | (fs2, .ok true) => jsonSave env fs2 path t

/-- JsonTodoRepository.count: calls the loader with no try/except of its
own, so whatever the loader raises propagates unchanged. -/
def jsonCount (env : Env) (fs : FS Content) (path : String) :
    FS Content × Except PyExc Nat :=
  match jsonLoadAll env fs path with
  | .error e => (fs, .error e)
  | .ok d => (fs, .ok d.length)

/-- JsonTodoRepository._ensure_file_exists, run by the constructor: creates
the data file holding the serialized empty object when it is absent. -/
def jsonInit (fs : FS Content) (path : String) : FS Content :=
  if fsExists fs path then fs else fsSet fs path (Content.jsonDoc [])

/-- Whether an element is matched by the XPath query todo[@id=...]. -/
def xmlMatchesId (e : XmlTodoElem) (id : String) : Bool :=
  decide (e.tag = "todo") && decide (xmlGetAttr e "id" = some id)

/-- Drop the first element satisfying the test (root.remove of the element
returned by find). -/
def eraseFirst {α : Type} (p : α → Bool) : List α → List α
  | [] => []
  | x :: rest => if p x then rest else x :: eraseFirst p rest

/-- XmlTodoRepository._load_xml_root: an absent file yields a fresh empty
todos root; a ParseError is re-raised as the repository error; a read the
platform fails surfaces as a raw OSError. -/
def xmlLoadRoot (env : Env) (fs : FS Content) (path : String) :
    Except PyExc (List XmlTodoElem) :=
  if fsExists fs path then
    match env.readErr with
    | some m => .error (.osError m)
    | none =>
      match fsGet fs path with
      | some (Content.xmlDoc d) => .ok d
      | some (Content.jsonDoc _) =>
        .error (.repositoryError "Invalid XML format: syntax error")
      | some Content.jsonNonDict =>
        .error (.repositoryError "Invalid XML format: syntax error")
      | some Content.blank =>
        .error (.repositoryError "Invalid XML format: no element found")
      | some (Content.raw s) =>
        .error (.repositoryError ("Invalid XML format: " ++ s))
      | none => .ok []
  else .ok []

/-- XmlTodoRepository._save_xml_root: back up an existing file, then write
the serialized tree atomically; any failure re-raised as the repository
error.  The whitespace added by _indent_xml is not observable through the
todo codec and is absorbed into the serialized content value. -/
def xmlSaveRoot (env : Env) (fs : FS Content) (path : String)
    (d : List XmlTodoElem) : FS Content × Except PyExc Unit :=
  match backupThenWrite env fs path (Content.xmlDoc d) with
  | (fs2, some m) =>
    (fs2, .error (.repositoryError ("Failed to write XML file: " ++ m)))
  | (fs2, none) => (fs2, .ok ())

/-- XmlTodoRepository.save: remove every element with the same id, append
the freshly encoded element, persist. -/
def xmlSave (env : Env) (fs : FS Content) (path : String) (t : Todo) :
    FS Content × Except PyExc Unit :=
  match xmlLoadRoot env fs path with
  | .error e => (fs, .error (wrapExc "Failed to save todo: " e))
  | .ok root =>
    let root2 := (root.filter (fun el => !(xmlMatchesId el t.id)))
      ++ [todo_to_xml_element t]
    match xmlSaveRoot env fs path root2 with
    | (fs2, .error e) => (fs2, .error (wrapExc "Failed to save todo: " e))
    | (fs2, .ok _) => (fs2, .ok ())

/-- XmlTodoRepository.find_by_id: first matching element, decoded. -/
def xmlFindById (env : Env) (fs : FS Content) (path : String) (id : String) :
    FS Content × Except PyExc (Option Todo) :=
  match xmlLoadRoot env fs path with
  | .error e => (fs, .error (wrapExc "Failed to find todo: " e))
  | .ok root =>
    match root.find? (fun el => xmlMatchesId el id) with
    | none => (fs, .ok none)
    | some el =>
      match xml_element_to_todo el with
      | .error e => (fs, .error (wrapExc "Failed to find todo: " e))
      | .ok t => (fs, .ok (some t))

/-- Decoding of every todo element in document order. -/
def decodeAllXml : List XmlTodoElem → Except PyExc (List Todo)
  | [] => .ok []
  | el :: rest =>
    match xml_element_to_todo el with
    | .error e => .error e
    | .ok t =>
      match decodeAllXml rest with
      | .error e => .error e
      | .ok ts => .ok (t :: ts)

/-- XmlTodoRepository.find_all. -/
def xmlFindAll (env : Env) (fs : FS Content) (path : String) :
    FS Content × Except PyExc (List Todo) :=
  match xmlLoadRoot env fs path with
  | .error e => (fs, .error (wrapExc "Failed to load todos: " e))
  | .ok root =>
    match decodeAllXml (root.filter (fun el => decide (el.tag = "todo"))) with
    | .error e => (fs, .error (wrapExc "Failed to load todos: " e))
    | .ok ts => (fs, .ok ts)

/-- XmlTodoRepository.delete: remove the first matching element and persist
when one exists, otherwise return false without writing. -/
def xmlDelete (env : Env) (fs : FS Content) (path : String) (id : String) :
    FS Content × Except PyExc Bool :=
  match xmlLoadRoot env fs path with
  | .error e => (fs, .error (wrapExc "Failed to delete todo: " e))
  | .ok root =>
    match root.find? (fun el => xmlMatchesId el id) with
    | some _ =>
      match xmlSaveRoot env fs path (eraseFirst (fun el => xmlMatchesId el id) root) with
      | (fs2, .error e) => (fs2, .error (wrapExc "Failed to delete todo: " e))
      | (fs2, .ok _) => (fs2, .ok true)
    | none => (fs, .ok false)

/-- XmlTodoRepository.exists. -/
def xmlExistsOp (env : Env) (fs : FS Content) (path : String) (id : String) :
    FS Content × Except PyExc Bool :=
  match xmlFindById env fs path id with
  | (fs2, .error e) => (fs2, .error e)
  | (fs2, .ok r) => (fs2, .ok r.isSome)

/-- XmlTodoRepository.update. -/
def xmlUpdate (env : Env) (fs : FS Content) (path : String) (t : Todo) :
    FS Content × Except PyExc Unit :=
  match xmlExistsOp env fs path t.id with
  | (fs2, .error e) => (fs2, .error e)
  | (fs2, .ok false) => (fs2, .error (.todoNotFound t.id))
  | (fs2, .ok true) => xmlSave env fs2 path t

/-- XmlTodoRepository.count: the loader runs outside any try/except. -/
def xmlCount (env : Env) (fs : FS Content) (path : String) :
    FS Content × Except PyExc Nat :=
  match xmlLoadRoot env fs path with
  | .error e => (fs, .error e)
  | .ok root => (fs, .ok (root.filter (fun el => decide (el.tag = "todo"))).length)

/-- Number of records in the JSON document carrying a given id. -/
def countKey {α : Type} (d : List (String × α)) (k : String) : Nat :=
  (d.filter (fun p => decide (p.1 = k))).length

/-- Number of todo elements in the XML document carrying a given id. -/
def countXmlId (d : List XmlTodoElem) (id : String) : Nat :=
  (d.filter (fun el => xmlMatchesId el id)).length

/-- XmlTodoRepository._ensure_file_exists, run by the constructor: when the
file is absent, persist a fresh empty todos root through _save_xml_root. -/
def xmlInit (env : Env) (fs : FS Content) (path : String) : FS Content :=
  if fsExists fs path then fs else (xmlSaveRoot env fs path []).1

/-- Concrete sample values used by the closed counterexamples and witnesses
below. -/
def sampleDT : DateTime := ⟨"2024-01-01T00:00:00"⟩

/-- A task with an id that appears in no sample document. -/
def task9 : Todo := ⟨"id9", "Ghost", none, false, Priority.low, ⟨"2024-01-01T00:00:00"⟩, none⟩

/-- A second version of task1: same id, new title. -/
def task1b : Todo := ⟨"id1", "Buy oat milk", none, false, Priority.high, ⟨"2024-01-03T00:00:00"⟩, none⟩

/-- A later sample timestamp. -/
def sampleDT2 : DateTime := ⟨"2024-01-02T00:00:00"⟩

/-- A plain valid task with null description and null updated_at. -/
def task1 : Todo := ⟨"id1", "Buy milk", none, false, .medium, sampleDT, none⟩

/-- A valid task whose description is the empty string. -/
def task2 : Todo := ⟨"id2", "Buy milk", some "", false, .low, sampleDT, none⟩

/-- A valid task with every optional field populated. -/
def task3 : Todo := ⟨"id3", "Walk dog", some "around the block", true, .high,
  sampleDT, some sampleDT2⟩

/-- An oracle with no injected failure. -/
def envH : Env := ⟨"20240101_000000", none, false, false, false⟩

/-- A later no-failure oracle for a second write. -/
def envH2 : Env := ⟨"20240102_000000", none, false, false, false⟩

/-- An oracle making file reads raise OSError. -/
def envRead : Env := ⟨"ts", some "Permission denied", false, false, false⟩

/-- An oracle making the temp-file write fail, on a POSIX platform. -/
def envTmpFail : Env := ⟨"ts", none, true, false, false⟩

/-- An oracle making the replace step fail, on Windows. -/
def envWinRepl : Env := ⟨"ts", none, false, true, true⟩

/-- An oracle making the replace step fail, on a POSIX platform. -/
def envReplFail : Env := ⟨"ts", none, false, true, false⟩

/-- A one-file string filesystem for the safe_write scenarios. -/
def fsOldStr : FS String := fsSet fsEmpty "a.json" "old"

/-- The filesystem after constructing the JSON store in an empty directory. -/
def jsonFs0 : FS Content := jsonInit fsEmpty "todos.json"

/-- The filesystem after constructing the XML store in an empty directory. -/
def xmlFs0 : FS Content := xmlInit envH fsEmpty "todos.xml"

/-- A three-record JSON document (for delete and count scenarios). -/
def jsonDoc3 : List (String × TodoDict) :=
  [("id1", todo_to_dict task1), ("id2", todo_to_dict task2),
   ("id3", todo_to_dict task3)]

/-- A three-element XML document. -/
def xmlDoc3 : List XmlTodoElem :=
  [todo_to_xml_element task1, todo_to_xml_element task2,
   todo_to_xml_element task3]

/-- A filesystem holding the three-record JSON document. -/
def fsJson3 : FS Content := fsSet fsEmpty "todos.json" (Content.jsonDoc jsonDoc3)

/-- A filesystem holding the three-element XML document. -/
def fsXml3 : FS Content := fsSet fsEmpty "todos.xml" (Content.xmlDoc xmlDoc3)

/-- The XML task element of the C5 scenario: id attribute and title child
but no completed child. -/
def elemMissingCompleted : XmlTodoElem :=
  ⟨"todo", [("id", "test-id")], [⟨"title", some "Test"⟩]⟩

/-- A task element missing the priority child instead (completed present). -/
def elemMissingPriority : XmlTodoElem :=
  ⟨"todo", [("id", "test-id")],
   [⟨"title", some "Test"⟩, ⟨"completed", some "false"⟩]⟩

/-- Splitting a name at its suffix and re-concatenating gives it back. -/
theorem pathStem_append_pathSuffix (p : String) :
    pathStem p ++ pathSuffix p = p := by
  show String.mk (List.take (extIndex p.data) p.data
    ++ List.drop (extIndex p.data) p.data) = p
  rw [List.take_append_drop]

/-- The temp path is the original path with .tmp appended. -/
theorem tmpPath_eq (p : String) : tmpPath p = p ++ ".tmp" := by
  show String.mk (List.take (extIndex p.data) p.data
    ++ (List.drop (extIndex p.data) p.data ++ ".tmp".data)) = String.mk (p.data ++ ".tmp".data)
  rw [← List.append_assoc, List.take_append_drop]

/-- The temp path never collides with the target path. -/
theorem tmpPath_ne_self (p : String) : tmpPath p ≠ p := by
  intro h
  have h2 : (p ++ ".tmp").length = p.length := by rw [← tmpPath_eq p, h]
  rw [String.length_append] at h2
  have h3 : (".tmp" : String).length = 4 := rfl
  omega

/-- Length of a backup path in terms of the original path and timestamp. -/
theorem backupPath_length (p ts : String) :
    (backupPath p ts).length = p.length + 8 + ts.length := by
  have hss : (pathStem p).length + (pathSuffix p).length = p.length := by
    rw [← String.length_append, pathStem_append_pathSuffix]
  have h8 : ("_backup_" : String).length = 8 := rfl
  simp only [backupPath, String.length_append]
  omega

/-- A backup path never collides with the data path. -/
theorem backupPath_ne_path (p ts : String) : backupPath p ts ≠ p := by
  intro h
  have h2 := congrArg String.length h
  rw [backupPath_length] at h2
  omega

/-- A backup path never collides with the temp path. -/
theorem backupPath_ne_tmpPath (p ts : String) : backupPath p ts ≠ tmpPath p := by
  intro h
  have h2 := congrArg String.length h
  rw [backupPath_length, tmpPath_eq, String.length_append] at h2
  have h3 : (".tmp" : String).length = 4 := rfl
  omega

/-- Reading back the path just written. -/
theorem fsGet_fsSet_self {α : Type} (fs : FS α) (p : String) (v : α) :
    fsGet (fsSet fs p v) p = some v := by
  simp [fsGet, fsSet]

/-- Writing one path does not disturb another. -/
theorem fsGet_fsSet_ne {α : Type} (fs : FS α) (p q : String) (v : α)
    (h : q ≠ p) : fsGet (fsSet fs p v) q = fsGet fs q := by
  simp [fsGet, fsSet, h]

/-- Reading an erased path. -/
theorem fsGet_fsErase_self {α : Type} (fs : FS α) (p : String) :
    fsGet (fsErase fs p) p = none := by
  simp [fsGet, fsErase]

/-- Erasing one path does not disturb another. -/
theorem fsGet_fsErase_ne {α : Type} (fs : FS α) (p q : String)
    (h : q ≠ p) : fsGet (fsErase fs p) q = fsGet fs q := by
  simp [fsGet, fsErase, h]

/-- With no injected failure, safe_write succeeds, the target holds exactly
the written content, no temp file remains, and no other path changes. -/
theorem safeWrite_happy {α : Type} (env : Env) (fs : FS α) (path : String)
    (content : α) (h1 : env.tmpWriteErr = false) (h2 : env.replaceErr = false) :
    (safeWrite env fs path content).2 = none ∧
    fsGet (safeWrite env fs path content).1 path = some content ∧
    fsGet (safeWrite env fs path content).1 (tmpPath path) = none ∧
    ∀ q, q ≠ path → q ≠ tmpPath path →
      fsGet (safeWrite env fs path content).1 q = fsGet fs q := by
  have hpt : path ≠ tmpPath path := fun h => tmpPath_ne_self path h.symm
  simp only [safeWrite, h1, h2, Bool.false_eq_true, if_false]
  by_cases hw : (env.win && fsExists (fsSet fs (tmpPath path) content) path) = true
  · simp only [hw, if_true]
    refine ⟨trivial, fsGet_fsSet_self _ _ _, ?_, ?_⟩
    · rw [fsGet_fsSet_ne _ _ _ _ (tmpPath_ne_self path), fsGet_fsErase_self]
    · intro q hq1 hq2
      rw [fsGet_fsSet_ne _ _ _ _ hq1, fsGet_fsErase_ne _ _ _ hq2,
        fsGet_fsErase_ne _ _ _ hq1, fsGet_fsSet_ne _ _ _ _ hq2]
  · simp only [Bool.not_eq_true] at hw
    simp only [hw, Bool.false_eq_true, if_false]
    refine ⟨trivial, fsGet_fsSet_self _ _ _, ?_, ?_⟩
    · rw [fsGet_fsSet_ne _ _ _ _ (tmpPath_ne_self path), fsGet_fsErase_self]
    · intro q hq1 hq2
      rw [fsGet_fsSet_ne _ _ _ _ hq1, fsGet_fsErase_ne _ _ _ hq2,
        fsGet_fsSet_ne _ _ _ _ hq2]

/-- When the temp-file write fails, safe_write raises, removes the temp
file, and leaves every other path (the target included) untouched. -/
theorem safeWrite_tmpErr {α : Type} (env : Env) (fs : FS α) (path : String)
    (content : α) (h1 : env.tmpWriteErr = true) :
    safeWrite env fs path content
      = (fsErase fs (tmpPath path), some "temp write failed") := by
  simp [safeWrite, h1]

/-- When the replace step fails on a POSIX platform, safe_write raises,
removes the temp file, and leaves every other path untouched. -/
theorem safeWrite_replaceErr_posix {α : Type} (env : Env) (fs : FS α)
    (path : String) (content : α) (h1 : env.tmpWriteErr = false)
    (h2 : env.replaceErr = true) (hw : env.win = false) :
    safeWrite env fs path content
      = (fsErase (fsSet fs (tmpPath path) content) (tmpPath path),
         some "replace failed") := by
  simp [safeWrite, h1, h2, hw]

/-- C1: on the POSIX branch of safe_write, a failure at either the
temp-file write or the replace step leaves the target exactly as it was
(same previous content, or still absent), leaves no .tmp sibling behind,
and propagates the error; a run with no failure leaves the target holding
exactly the written content.  The error is raised exactly when one of the
two steps was made to fail.  (The Windows branch is excluded: see the
counterexample, where the pre-delete of an existing target makes a replace
failure lose the previous content.) -/
theorem safeWrite_posix_failure_atomic (env : Env) (fs : FS String)
    (path content : String) (hwin : env.win = false) :
    ((safeWrite env fs path content).2.isSome
        ↔ (env.tmpWriteErr = true ∨ env.replaceErr = true)) ∧
    ((safeWrite env fs path content).2.isSome →
      fsGet (safeWrite env fs path content).1 path = fsGet fs path ∧
      fsGet (safeWrite env fs path content).1 (tmpPath path) = none) ∧
    ((safeWrite env fs path content).2 = none →
      fsGet (safeWrite env fs path content).1 path = some content ∧
      fsGet (safeWrite env fs path content).1 (tmpPath path) = none) := by
  have hpt : path ≠ tmpPath path := fun h => tmpPath_ne_self path h.symm
  by_cases h1 : env.tmpWriteErr = true
  · rw [safeWrite_tmpErr env fs path content h1]
    refine ⟨by simp [h1], ?_, by simp⟩
    intro _
    exact ⟨fsGet_fsErase_ne _ _ _ hpt, fsGet_fsErase_self _ _⟩
  · have h1f : env.tmpWriteErr = false := by
      cases h : env.tmpWriteErr
      · rfl
      · exact absurd h h1
    by_cases h2 : env.replaceErr = true
    · rw [safeWrite_replaceErr_posix env fs path content h1f h2 hwin]
      refine ⟨by simp [h2], ?_, by simp⟩
      intro _
      constructor
      · rw [fsGet_fsErase_ne _ _ _ hpt, fsGet_fsSet_ne _ _ _ _ hpt]
      · exact fsGet_fsErase_self _ _
    · have h2f : env.replaceErr = false := by
        cases h : env.replaceErr
        · rfl
        · exact absurd h h2
      obtain ⟨ha, hb, hc, _⟩ := safeWrite_happy env fs path content h1f h2f
      refine ⟨by simp [ha, h1f, h2f], ?_, fun _ => ⟨hb, hc⟩⟩
      intro hcontra
      rw [ha] at hcontra
      simp at hcontra

/-- C1 witness: a concrete POSIX run whose temp write fails keeps the
previous target content and leaves no temp file. -/
theorem safeWrite_posix_failure_atomic_witness :
    fsGet (safeWrite envTmpFail fsOldStr "a.json" "new").1 "a.json"
        = fsGet fsOldStr "a.json" ∧
    fsGet (safeWrite envTmpFail fsOldStr "a.json" "new").1 (tmpPath "a.json")
        = none :=
  (safeWrite_posix_failure_atomic envTmpFail fsOldStr "a.json" "new"
    rfl).2.1 (by decide)

/-- C1 counterexample: on the Windows branch the code deletes an existing
target before the replace, so a replace failure ends with the target file
absent even though it previously held content, contradicting the claim
that after any failure the target still holds exactly its previous
content.  The temp file is still cleaned up and the error propagated. -/
theorem safeWrite_windows_replace_loses_target :
    fsGet fsOldStr "a.json" = some "old" ∧
    (safeWrite envWinRepl fsOldStr "a.json" "new").2 = some "replace failed" ∧
    fsGet (safeWrite envWinRepl fsOldStr "a.json" "new").1 "a.json" = none := by
  refine ⟨by decide, by decide, by decide⟩

/-- Enum lookup by value is a left inverse of .value. -/
theorem priority_fromValue_value (p : Priority) :
    Priority.fromValue p.value = some p := by
  cases p <;> rfl

/-- The stripped character data of a string. -/
theorem pyStrip_data (s : String) :
    (pyStrip s).data
      = List.rdropWhile Char.isWhitespace
          (List.dropWhile Char.isWhitespace s.data) := rfl

/-- Stripping an already stripped string changes nothing. -/
theorem pyStrip_idempotent (s : String) : pyStrip (pyStrip s) = pyStrip s := by
  apply String.ext
  rw [pyStrip_data, pyStrip_data]
  set p := Char.isWhitespace with hp
  set m := List.dropWhile p s.data with hm
  set r := List.rdropWhile p m with hr
  have hmm : List.dropWhile p m = m := List.dropWhile_idempotent p s.data
  have hdw : List.dropWhile p r = r := by
    rw [List.dropWhile_eq_self_iff]
    intro hl
    have hpre : r <+: m := List.rdropWhile_prefix p m
    have hlen : r.length ≤ m.length := hpre.length_le
    have hgl : m.get ⟨0, by omega⟩ = r.get ⟨0, hl⟩ := by
      have h0 := hpre.getElem hl
      simpa [List.get_eq_getElem] using h0.symm
    have hnot := (List.dropWhile_eq_self_iff.mp hmm) (by omega)
    rw [hgl] at hnot
    exact hnot
  rw [hdw, List.rdropWhile_idempotent]

/-- A concrete evaluation of str.lower on the literal true. -/
theorem pyLower_true : pyLower "true" = "true" := rfl

/-- A concrete evaluation of str.lower on the literal false. -/
theorem pyLower_false : pyLower "false" = "false" := rfl

/-- Pydantic construction succeeds verbatim on a stored-form task: trimmed
non-empty title within limits and description within limits. -/
theorem todoNew_valid (i ti : String) (de : Option String) (co : Bool)
    (pr : Priority) (ca : DateTime) (ua : Option DateTime)
    (h1 : pyStrip ti = ti) (h2 : ti ≠ "") (h3 : ti.length ≤ 200)
    (h4 : descriptionOverLimit de = false) :
    todoNew i ti de co pr ca ua = .ok ⟨i, ti, de, co, pr, ca, ua⟩ := by
  have hlen : ¬ ti.length > 200 := by omega
  simp only [todoNew, hlen, if_false, h4, Bool.false_eq_true, validate_title,
    h1, h2, ite_false, ite_true]

/-- The JSON record codec is a round trip on every stored-form task,
whatever its description (null or any string) and updated_at (null or a
datetime). -/
theorem json_record_round_trip (t : Todo) (h : validTodo t = true) :
    dict_to_todo (todo_to_dict t) = .ok t := by
  obtain ⟨i, ti, de, co, pr, ca, ua⟩ := t
  simp only [validTodo, Bool.and_eq_true, decide_eq_true_eq] at h
  obtain ⟨⟨⟨⟨⟨h1, h2⟩, h3⟩, h4⟩, h5⟩, h6⟩ := h
  have h4b : descriptionOverLimit de = false := by
    cases de with
    | none => rfl
    | some d =>
      simp only [decide_eq_true_eq] at h4
      simp only [descriptionOverLimit, decide_eq_false_iff_not]
      omega
  simp only [dict_to_todo, todo_to_dict, DateTime.isoformat,
    priority_fromValue_value, DateTime.fromisoformat]
  cases ua with
  | none => exact todoNew_valid i ti de co pr ca none h1 h2 h3 h4b
  | some u =>
    simp only [decide_eq_true_eq] at h6
    show todoNew i ti de co pr (DateTime.fromisoformat ca.iso)
        (if u.iso = "" then none else some (DateTime.fromisoformat u.iso))
      = Except.ok ⟨i, ti, de, co, pr, ca, some u⟩
    rw [if_neg h6]
    exact todoNew_valid i ti de co pr ca (some u) h1 h2 h3 h4b

/-- The XML element codec round trips every stored-form task whose
description is not the empty string. -/
theorem xml_record_round_trip (t : Todo) (h : validTodo t = true)
    (hd : t.description ≠ some "") :
    xml_element_to_todo (todo_to_xml_element t) = .ok t := by
  obtain ⟨i, ti, de, co, pr, ca, ua⟩ := t
  simp only [validTodo, Bool.and_eq_true, decide_eq_true_eq] at h
  obtain ⟨⟨⟨⟨⟨h1, h2⟩, h3⟩, h4⟩, h5⟩, h6⟩ := h
  have h4b : descriptionOverLimit de = false := by
    cases de with
    | none => rfl
    | some d =>
      simp only [decide_eq_true_eq] at h4
      simp only [descriptionOverLimit, decide_eq_false_iff_not]
      omega
  have hnew := todoNew_valid i ti de co pr ca ua h1 h2 h3 h4b
  rcases de with _ | d
  all_goals rcases ua with _ | u
  all_goals cases co
  all_goals try simp only [ne_eq, Option.some.injEq] at hd
  all_goals
    simp [todo_to_xml_element, xml_element_to_todo, xmlFind, xmlGetAttr,
      elemText, DateTime.isoformat, DateTime.fromisoformat,
      pyLower_true, pyLower_false, bind, Except.bind, pure, Except.pure,
      hd, priority_fromValue_value, hnew]

/-- C3 (amended): the JSON record codec decode(encode(task)) is the
identity on every stored-form task, null description and null updated_at
included; the XML element codec is the identity on every stored-form task
whose description is not the empty string (a None or non-empty
description round trips, the empty string does not). -/
theorem codec_round_trip :
    (∀ t : Todo, validTodo t = true → dict_to_todo (todo_to_dict t) = .ok t) ∧
    (∀ t : Todo, validTodo t = true → t.description ≠ some "" →
      xml_element_to_todo (todo_to_xml_element t) = .ok t) :=
  ⟨json_record_round_trip, xml_record_round_trip⟩

/-- C3 witness: a fully populated task round trips through both codecs. -/
theorem codec_round_trip_witness :
    dict_to_todo (todo_to_dict task3) = .ok task3 ∧
    xml_element_to_todo (todo_to_xml_element task3) = .ok task3 :=
  ⟨codec_round_trip.1 task3 (by decide),
   codec_round_trip.2 task3 (by decide) (by decide)⟩

/-- C3 counterexample: a valid task whose description is the empty string
does not round trip through the XML codec — the encoder emits no
description element for a falsy description, so the decoder returns a task
with a null description, which differs from the original. -/
theorem xml_codec_drops_empty_description :
    validTodo task2 = true ∧
    xml_element_to_todo (todo_to_xml_element task2)
      = .ok { task2 with description := none } ∧
    ({ task2 with description := none } : Todo) ≠ task2 := by
  refine ⟨by decide, by decide, by decide⟩

/-- C5: decoding an XML task element with an id attribute and a title child
but no completed child raises the generic AttributeError of accessing
.text on None — an error that does not name the completed field (the same
exception is raised for a missing priority child) and is not the
repository decode-error kind the tests expect. -/
theorem xml_decoder_missing_field_generic_error :
    xml_element_to_todo elemMissingCompleted = .error noneTextExc ∧
    xml_element_to_todo elemMissingPriority = .error noneTextExc ∧
    strContains (PyExc.str noneTextExc) "completed" = false ∧
    noneTextExc.isRepositoryError = false := by
  refine ⟨by decide, by decide, by decide, by decide⟩

/-- C9 (amended): the title invariant is enforced at construction only —
construction rejects an all-whitespace title and stores the title
trimmed and non-empty, and the mutators other than update_title preserve
the title; update_title stores its argument verbatim, with no
re-validation. -/
theorem title_validated_only_at_construction :
    (∀ i ti de co pr ca ua t, todoNew i ti de co pr ca ua = Except.ok t →
        t.title = pyStrip ti ∧ pyStrip t.title = t.title ∧ t.title ≠ "") ∧
    (∀ i ti de co pr ca ua, pyStrip ti = "" →
        ∀ t, todoNew i ti de co pr ca ua ≠ Except.ok t) ∧
    (∀ (t : Todo) (now : DateTime),
        (t.mark_completed now).title = t.title ∧
        (t.mark_incomplete now).title = t.title) ∧
    (∀ (t : Todo) (d : Option String) (now : DateTime),
        (t.update_description d now).title = t.title) ∧
    (∀ (t : Todo) (p : Priority) (now : DateTime),
        (t.update_priority p now).title = t.title) ∧
    (∀ (t : Todo) (s : String) (now : DateTime),
        (t.update_title s now).title = s) := by
  refine ⟨?_, ?_, fun t now => ⟨rfl, rfl⟩, fun t d now => rfl,
    fun t p now => rfl, fun t s now => rfl⟩
  · intro i ti de co pr ca ua t h
    simp only [todoNew, validate_title] at h
    split at h
    · simp at h
    · split at h
      · simp at h
      · split at h
        · simp at h
        · next tt hne =>
          split at hne
          · simp at hne
          · next hcond =>
            simp only [Except.ok.injEq] at hne h
            subst hne
            subst h
            exact ⟨rfl, pyStrip_idempotent ti, hcond⟩
  · intro i ti de co pr ca ua hstrip t h
    simp only [todoNew, validate_title, hstrip] at h
    split at h
    · simp at h
    · split at h
      · simp at h
      · simp at h

/-- C9 witness: a concretely constructed task has the trimmed non-empty
title returned by the validator. -/
theorem title_validated_only_at_construction_witness :
    task1.title = pyStrip "Buy milk" ∧ pyStrip task1.title = task1.title ∧
    task1.title ≠ "" :=
  title_validated_only_at_construction.1 "id1" "Buy milk" none false
    Priority.medium sampleDT none task1 (by decide)

/-- C9 counterexample: a validly constructed entity mutated through
update_title ends with an all-whitespace title — the assignment stores
the raw string, so the invariant claimed to hold after every mutator
fails on update_title. -/
theorem update_title_skips_validation :
    todoNew "id1" "Buy milk" none false Priority.medium sampleDT none
      = Except.ok task1 ∧
    pyStrip ((task1.update_title " " sampleDT2).title) = "" ∧
    (task1.update_title " " sampleDT2).title ≠ "" := by
  refine ⟨by decide, by decide, by decide⟩

/-- Lookup on a dict cons cell. -/
theorem dictGet_cons {α : Type} (k1 : String) (v1 : α)
    (rest : List (String × α)) (k : String) :
    dictGet ((k1, v1) :: rest) k
      = if k1 = k then some v1 else dictGet rest k := by
  by_cases h : k1 = k
  · subst h
    simp [dictGet, List.find?_cons_of_pos]
  · simp [dictGet, List.find?_cons_of_neg, h]

/-- Assignment then lookup of the same key. -/
theorem dictGet_dictSet_self {α : Type} (d : List (String × α))
    (k : String) (v : α) : dictGet (dictSet d k v) k = some v := by
  induction d with
  | nil => simp [dictSet, dictGet_cons]
  | cons p rest ih =>
    obtain ⟨k1, v1⟩ := p
    simp only [dictSet]
    by_cases h : k1 = k
    · simp [h, dictGet_cons]
    · simp [h, dictGet_cons, ih]

/-- Assignment leaves other keys unchanged. -/
theorem dictGet_dictSet_ne {α : Type} (d : List (String × α))
    (k q : String) (v : α) (h : q ≠ k) :
    dictGet (dictSet d k v) q = dictGet d q := by
  have hk : k ≠ q := fun e => h e.symm
  induction d with
  | nil => simp [dictSet, dictGet_cons, hk, dictGet]
  | cons p rest ih =>
    obtain ⟨k1, v1⟩ := p
    simp only [dictSet]
    by_cases hh : k1 = k
    · subst hh
      simp [dictGet_cons, hk]
    · simp [hh, dictGet_cons, ih]

/-- A key outside the key list looks up to nothing. -/
theorem dictGet_eq_none_of_not_mem {α : Type} (d : List (String × α))
    (k : String) (h : k ∉ d.map Prod.fst) : dictGet d k = none := by
  induction d with
  | nil => simp [dictGet]
  | cons p rest ih =>
    obtain ⟨k1, v1⟩ := p
    simp only [List.map_cons, List.mem_cons, not_or] at h
    rw [dictGet_cons, if_neg (fun e => h.1 e.symm)]
    exact ih h.2

/-- A key outside the key list is matched by no record. -/
theorem countKey_eq_zero_of_not_mem {α : Type} (d : List (String × α))
    (k : String) (h : k ∉ d.map Prod.fst) : countKey d k = 0 := by
  induction d with
  | nil => rfl
  | cons p rest ih =>
    obtain ⟨k1, v1⟩ := p
    simp only [List.map_cons, List.mem_cons, not_or] at h
    have hne : (decide (k1 = k)) = false := by
      simp only [decide_eq_false_iff_not]
      intro e
      exact h.1 e.symm
    simp only [countKey, List.filter_cons, hne, Bool.false_eq_true, if_false]
    exact ih h.2

/-- On a duplicate-free document, assignment leaves exactly one record
with the assigned key. -/
theorem countKey_dictSet {α : Type} (d : List (String × α)) (k : String)
    (v : α) (h : (d.map Prod.fst).Nodup) : countKey (dictSet d k v) k = 1 := by
  induction d with
  | nil => simp [dictSet, countKey, List.filter_cons]
  | cons p rest ih =>
    obtain ⟨k1, v1⟩ := p
    simp only [List.map_cons, List.nodup_cons] at h
    simp only [dictSet]
    by_cases hh : k1 = k
    · rw [if_pos hh]
      subst hh
      have h0 : countKey rest k1 = 0 := countKey_eq_zero_of_not_mem rest k1 h.1
      simp only [countKey, List.filter_cons] at h0 ⊢
      simp [h0]
    · rw [if_neg hh]
      have hne : (decide (k1 = k)) = false := by simp [hh]
      simp only [countKey, List.filter_cons, hne, Bool.false_eq_true, if_false]
      exact ih h.2

/-- Membership in the key list after an assignment. -/
theorem mem_keys_dictSet {α : Type} (d : List (String × α)) (k q : String)
    (v : α) : q ∈ (dictSet d k v).map Prod.fst
      ↔ (q ∈ d.map Prod.fst ∨ q = k) := by
  induction d with
  | nil => simp [dictSet]
  | cons p rest ih =>
    obtain ⟨k1, v1⟩ := p
    simp only [dictSet]
    by_cases hh : k1 = k
    · rw [if_pos hh]
      subst hh
      simp only [List.map_cons, List.mem_cons]
      tauto
    · rw [if_neg hh]
      simp only [List.map_cons, List.mem_cons, ih]
      tauto

/-- Assignment preserves key-list freedom from duplicates. -/
theorem nodup_keys_dictSet {α : Type} (d : List (String × α)) (k : String)
    (v : α) (h : (d.map Prod.fst).Nodup) :
    ((dictSet d k v).map Prod.fst).Nodup := by
  induction d with
  | nil => simp [dictSet]
  | cons p rest ih =>
    obtain ⟨k1, v1⟩ := p
    simp only [List.map_cons, List.nodup_cons] at h
    simp only [dictSet]
    by_cases hh : k1 = k
    · rw [if_pos hh]
      subst hh
      simp only [List.map_cons, List.nodup_cons]
      exact ⟨h.1, h.2⟩
    · rw [if_neg hh]
      simp only [List.map_cons, List.nodup_cons, mem_keys_dictSet]
      exact ⟨fun hc => hc.elim h.1 hh, ih h.2⟩

/-- On a duplicate-free document, deletion removes the key entirely. -/
theorem dictGet_dictErase_self {α : Type} (d : List (String × α))
    (k : String) (h : (d.map Prod.fst).Nodup) :
    dictGet (dictErase d k) k = none := by
  induction d with
  | nil => simp [dictErase, dictGet]
  | cons p rest ih =>
    obtain ⟨k1, v1⟩ := p
    simp only [List.map_cons, List.nodup_cons] at h
    simp only [dictErase]
    by_cases hh : k1 = k
    · rw [if_pos hh]
      subst hh
      exact dictGet_eq_none_of_not_mem rest k1 h.1
    · rw [if_neg hh, dictGet_cons, if_neg hh]
      exact ih h.2

/-- Deletion leaves the lookup of every other key unchanged. -/
theorem dictGet_dictErase_ne {α : Type} (d : List (String × α))
    (k q : String) (h : q ≠ k) :
    dictGet (dictErase d k) q = dictGet d q := by
  induction d with
  | nil => simp [dictErase]
  | cons p rest ih =>
    obtain ⟨k1, v1⟩ := p
    simp only [dictErase]
    by_cases hh : k1 = k
    · subst hh
      rw [if_pos rfl, dictGet_cons, if_neg (fun e => h e.symm)]
    · rw [if_neg hh, dictGet_cons, dictGet_cons, ih]

/-- Deleting a present key shrinks the document by exactly one record. -/
theorem length_dictErase {α : Type} (d : List (String × α)) (k : String)
    (h : dictHas d k = true) : (dictErase d k).length + 1 = d.length := by
  induction d with
  | nil => simp [dictHas, dictGet] at h
  | cons p rest ih =>
    obtain ⟨k1, v1⟩ := p
    simp only [dictErase]
    by_cases hh : k1 = k
    · simp [hh]
    · rw [if_neg hh]
      simp only [dictHas, dictGet_cons, if_neg hh] at h
      simp only [List.length_cons]
      rw [← ih h]

/-- The encoded element of a task is matched exactly by its own id. -/
theorem xmlMatchesId_encode (t : Todo) (j : String) :
    xmlMatchesId (todo_to_xml_element t) j = decide (t.id = j) := by
  simp [xmlMatchesId, todo_to_xml_element, xmlGetAttr, List.find?]

/-- Removing every match then appending the fresh element leaves exactly
one element with the saved id. -/
theorem countXmlId_save (root : List XmlTodoElem) (t : Todo) :
    countXmlId ((root.filter (fun el => !(xmlMatchesId el t.id)))
      ++ [todo_to_xml_element t]) t.id = 1 := by
  simp only [countXmlId, List.filter_append, List.length_append,
    List.filter_filter]
  rw [show (List.filter
      (fun el => xmlMatchesId el t.id && !xmlMatchesId el t.id) root) = []
    from List.filter_eq_nil_iff.mpr (fun el _ => by
      cases h : xmlMatchesId el t.id <;> simp [h])]
  simp [List.filter, xmlMatchesId_encode]

/-- The first match search after removing every match and appending the
fresh element finds that element. -/
theorem find_after_xml_save (root : List XmlTodoElem) (t : Todo) :
    ((root.filter (fun el => !(xmlMatchesId el t.id)))
      ++ [todo_to_xml_element t]).find? (fun el => xmlMatchesId el t.id)
      = some (todo_to_xml_element t) := by
  induction root with
  | nil => simp [List.find?, xmlMatchesId_encode]
  | cons el rest ih =>
    by_cases h : xmlMatchesId el t.id = true
    · simp only [List.filter, h, Bool.not_true]
      exact ih
    · have hf : xmlMatchesId el t.id = false := by
        cases hc : xmlMatchesId el t.id
        · rfl
        · exact absurd hc h
      simp only [List.filter, hf, Bool.not_false, List.cons_append]
      rw [List.find?_cons_of_neg _ (by simp [hf])]
      exact ih

/-- Dropping the first match of a present element shrinks the list by one. -/
theorem length_eraseFirst {α : Type} (p : α → Bool) (l : List α) (x : α)
    (h : l.find? p = some x) : (eraseFirst p l).length + 1 = l.length := by
  induction l with
  | nil => simp [List.find?] at h
  | cons y rest ih =>
    simp only [eraseFirst]
    by_cases hy : p y = true
    · simp [hy]
    · have hf : p y = false := by
        cases hc : p y
        · rfl
        · exact absurd hc hy
      rw [if_neg (by simp [hf])]
      rw [List.find?_cons_of_neg _ (by simp [hf])] at h
      simp only [List.length_cons]
      rw [← ih h]

/-- When at most one element matches, dropping the first match leaves no
match behind. -/
theorem find_eraseFirst_eq_none {α : Type} (p : α → Bool) (l : List α)
    (h : (l.filter p).length ≤ 1) :
    (eraseFirst p l).find? p = none := by
  induction l with
  | nil => simp [eraseFirst, List.find?]
  | cons y rest ih =>
    simp only [eraseFirst]
    by_cases hy : p y = true
    · rw [if_pos hy]
      simp only [List.filter, hy] at h
      simp only [List.length_cons, Nat.add_le_add_iff_right] at h
      rw [List.find?_eq_none]
      intro x hx hpx
      have : x ∈ rest.filter p := List.mem_filter.mpr ⟨hx, hpx⟩
      have hlen : 0 < (rest.filter p).length := List.length_pos.mpr
        (fun hnil => by simp [hnil] at this)
      omega
    · have hf : p y = false := by
        cases hc : p y
        · rfl
        · exact absurd hc hy
      rw [if_neg (by simp [hf])]
      rw [List.find?_cons_of_neg _ (by simp [hf])]
      apply ih
      simp only [List.filter, hf] at h
      exact h

/-- File existence as lookup success. -/
theorem fsExists_eq (fs : FS Content) (p : String) :
    fsExists fs p = (fsGet fs p).isSome := rfl

/-- The wrapped kind of every except-Exception re-raise. -/
theorem wrapExc_isRepo (c : String) (e : PyExc) :
    (wrapExc c e).isRepositoryError = true := rfl

/-- The loader succeeds on a well-formed document file. -/
theorem jsonLoadAll_doc (env : Env) (fs : FS Content) (path : String)
    (d : List (String × TodoDict)) (hre : env.readErr = none)
    (hfp : fsGet fs path = some (Content.jsonDoc d)) :
    jsonLoadAll env fs path = .ok d := by
  simp [jsonLoadAll, fsExists_eq, hfp, hre]

/-- The loader returns the empty document for an absent file. -/
theorem jsonLoadAll_absent (env : Env) (fs : FS Content) (path : String)
    (hfp : fsGet fs path = none) : jsonLoadAll env fs path = .ok [] := by
  simp [jsonLoadAll, fsExists_eq, hfp]

/-- Every loader failure is either the repository error kind (raised for a
parse failure or a non-object document) or the raw OSError of an injected
read failure. -/
theorem jsonLoadAll_error_kinds (env : Env) (fs : FS Content) (path : String)
    (e : PyExc) (h : jsonLoadAll env fs path = .error e) :
    e.isRepositoryError = true
      ∨ ∃ m, env.readErr = some m ∧ e = .osError m := by
  simp only [jsonLoadAll] at h
  split at h
  · rcases hre : env.readErr with _ | m
    · rw [hre] at h
      rcases hfp : fsGet fs path with _ | c
      · rw [hfp] at h
        simp at h
      · rw [hfp] at h
        cases c with
        | jsonDoc d => simp at h
        | blank => simp at h
        | jsonNonDict =>
          simp only [Except.error.injEq] at h
          exact Or.inl (by rw [← h]; rfl)
        | xmlDoc d =>
          simp only [Except.error.injEq] at h
          exact Or.inl (by rw [← h]; rfl)
        | raw s =>
          simp only [Except.error.injEq] at h
          exact Or.inl (by rw [← h]; rfl)
    · rw [hre] at h
      simp only [Except.error.injEq] at h
      exact Or.inr ⟨m, rfl, h.symm⟩
  · simp at h

/-- A loader failure under a failure-free read oracle is the repository
error kind. -/
theorem jsonLoadAll_error_repo (env : Env) (fs : FS Content) (path : String)
    (e : PyExc) (hre : env.readErr = none)
    (h : jsonLoadAll env fs path = .error e) : e.isRepositoryError = true := by
  rcases jsonLoadAll_error_kinds env fs path e h with hk | ⟨m, hm, _⟩
  · exact hk
  · rw [hre] at hm
    exact absurd hm (by simp)

/-- With no injected write failure, the persist step succeeds: the data
file holds the new content, no temp file remains, an existing file is
copied to the timestamped backup, and nothing else changes. -/
theorem backupThenWrite_happy (env : Env) (fs : FS Content) (path : String)
    (c : Content) (h1 : env.tmpWriteErr = false) (h2 : env.replaceErr = false) :
    (backupThenWrite env fs path c).2 = none ∧
    fsGet (backupThenWrite env fs path c).1 path = some c ∧
    fsGet (backupThenWrite env fs path c).1 (tmpPath path) = none ∧
    (∀ old, fsGet fs path = some old →
      fsGet (backupThenWrite env fs path c).1 (backupPath path env.now)
        = some old) ∧
    (fsGet fs path = none → ∀ q, q ≠ path → q ≠ tmpPath path →
      fsGet (backupThenWrite env fs path c).1 q = fsGet fs q) ∧
    (∀ q, q ≠ path → q ≠ tmpPath path → q ≠ backupPath path env.now →
      fsGet (backupThenWrite env fs path c).1 q = fsGet fs q) := by
  rcases hfp : fsGet fs path with _ | old
  · simp only [backupThenWrite, hfp]
    obtain ⟨ha, hb, hc, hframe⟩ := safeWrite_happy env fs path c h1 h2
    exact ⟨ha, hb, hc, fun o ho => by simp [hfp] at ho,
      fun _ q hq1 hq2 => hframe q hq1 hq2, fun q hq1 hq2 _ => hframe q hq1 hq2⟩
  · simp only [backupThenWrite, hfp]
    obtain ⟨ha, hb, hc, hframe⟩ :=
      safeWrite_happy env (fsSet fs (backupPath path env.now) old) path c h1 h2
    refine ⟨ha, hb, hc, ?_, ?_, ?_⟩
    · intro o ho
      obtain rfl : old = o := by injection ho
      rw [hframe (backupPath path env.now) (backupPath_ne_path path env.now)
        (backupPath_ne_tmpPath path env.now)]
      exact fsGet_fsSet_self _ _ _
    · intro hnone
      exact absurd hnone (by simp)
    · intro q hq1 hq2 hq3
      rw [hframe q hq1 hq2]
      exact fsGet_fsSet_ne _ _ _ _ hq3

/-- When the persist step raised no error, _save_all_todos returns the
written filesystem with success. -/
theorem jsonSaveAll_of_write_ok (env : Env) (fs : FS Content) (path : String)
    (d : List (String × TodoDict))
    (h : (backupThenWrite env fs path (Content.jsonDoc d)).2 = none) :
    jsonSaveAll env fs path d
      = ((backupThenWrite env fs path (Content.jsonDoc d)).1, .ok ()) := by
  simp only [jsonSaveAll]
  rcases hbw : backupThenWrite env fs path (Content.jsonDoc d) with ⟨fs2, me⟩
  rw [hbw] at h
  cases me with
  | none => rfl
  | some m => simp at h

/-- Every _save_all_todos failure surfaces as the repository error kind. -/
theorem jsonSaveAll_error_repo (env : Env) (fs : FS Content) (path : String)
    (d : List (String × TodoDict)) (e : PyExc)
    (h : (jsonSaveAll env fs path d).2 = .error e) :
    e.isRepositoryError = true := by
  simp only [jsonSaveAll] at h
  rcases hbw : backupThenWrite env fs path (Content.jsonDoc d) with ⟨fs2, me⟩
  rw [hbw] at h
  cases me with
  | none => simp at h
  | some m =>
    simp only [Except.error.injEq] at h
    rw [← h]
    rfl

/-- find_by_id never writes. -/
theorem jsonFindById_fst (env : Env) (fs : FS Content) (path id : String) :
    (jsonFindById env fs path id).1 = fs := by
  simp only [jsonFindById]
  split
  · rfl
  · split
    · rfl
    · split <;> rfl

/-- find_all never writes. -/
theorem jsonFindAll_fst (env : Env) (fs : FS Content) (path : String) :
    (jsonFindAll env fs path).1 = fs := by
  simp only [jsonFindAll]
  split
  · rfl
  · split <;> rfl

/-- exists never writes. -/
theorem jsonExistsOp_fst (env : Env) (fs : FS Content) (path id : String) :
    (jsonExistsOp env fs path id).1 = fs := by
  have hf := jsonFindById_fst env fs path id
  simp only [jsonExistsOp]
  rcases hp : jsonFindById env fs path id with ⟨fs2, r⟩
  rw [hp] at hf
  cases r <;> simpa using hf

/-- count never writes. -/
theorem jsonCount_fst (env : Env) (fs : FS Content) (path : String) :
    (jsonCount env fs path).1 = fs := by
  simp only [jsonCount]
  split <;> rfl

/-- Every find_by_id failure is the wrapped repository error kind. -/
theorem jsonFindById_error_repo (env : Env) (fs : FS Content) (path id : String)
    (e : PyExc) (h : (jsonFindById env fs path id).2 = .error e) :
    e.isRepositoryError = true := by
  simp only [jsonFindById] at h
  split at h
  · simp only [Except.error.injEq] at h
    rw [← h]
    rfl
  · split at h
    · simp at h
    · split at h
      · simp only [Except.error.injEq] at h
        rw [← h]
        rfl
      · simp at h

/-- Every find_all failure is the wrapped repository error kind. -/
theorem jsonFindAll_error_repo (env : Env) (fs : FS Content) (path : String)
    (e : PyExc) (h : (jsonFindAll env fs path).2 = .error e) :
    e.isRepositoryError = true := by
  simp only [jsonFindAll] at h
  split at h
  · simp only [Except.error.injEq] at h
    rw [← h]
    rfl
  · split at h
    · simp only [Except.error.injEq] at h
      rw [← h]
      rfl
    · simp at h

/-- Every save failure is the wrapped repository error kind. -/
theorem jsonSave_error_repo (env : Env) (fs : FS Content) (path : String)
    (t : Todo) (e : PyExc) (h : (jsonSave env fs path t).2 = .error e) :
    e.isRepositoryError = true := by
  simp only [jsonSave] at h
  split at h
  · simp only [Except.error.injEq] at h
    rw [← h]
    rfl
  · split at h
    · simp only [Except.error.injEq] at h
      rw [← h]
      rfl
    · simp at h

/-- Every delete failure is the wrapped repository error kind. -/
theorem jsonDelete_error_repo (env : Env) (fs : FS Content) (path id : String)
    (e : PyExc) (h : (jsonDelete env fs path id).2 = .error e) :
    e.isRepositoryError = true := by
  simp only [jsonDelete] at h
  split at h
  · simp only [Except.error.injEq] at h
    rw [← h]
    rfl
  · split at h
    · split at h
      · simp only [Except.error.injEq] at h
        rw [← h]
        rfl
      · simp at h
    · simp at h

/-- Every exists failure is the wrapped repository error kind. -/
theorem jsonExistsOp_error_repo (env : Env) (fs : FS Content) (path id : String)
    (e : PyExc) (h : (jsonExistsOp env fs path id).2 = .error e) :
    e.isRepositoryError = true := by
  simp only [jsonExistsOp] at h
  rcases hp : jsonFindById env fs path id with ⟨fs2, r⟩
  rw [hp] at h
  cases r with
  | error e2 =>
    simp only [Except.error.injEq] at h
    rw [← h]
    exact jsonFindById_error_repo env fs path id e2 (by rw [hp])
  | ok r2 => simp at h

/-- save on a loadable document with no injected write failure: success,
the document is rewritten with the record upserted, the temp file is gone,
an existing file has been backed up with its old content, and an absent
file produces no other change (in particular no backup). -/
theorem jsonSave_happy (env : Env) (fs : FS Content) (path : String)
    (t : Todo) (d : List (String × TodoDict))
    (h1 : env.tmpWriteErr = false) (h2 : env.replaceErr = false)
    (hl : jsonLoadAll env fs path = .ok d) :
    (jsonSave env fs path t).2 = .ok () ∧
    fsGet (jsonSave env fs path t).1 path
      = some (Content.jsonDoc (dictSet d t.id (todo_to_dict t))) ∧
    fsGet (jsonSave env fs path t).1 (tmpPath path) = none ∧
    (∀ old, fsGet fs path = some old →
      fsGet (jsonSave env fs path t).1 (backupPath path env.now) = some old) ∧
    (fsGet fs path = none → ∀ q, q ≠ path → q ≠ tmpPath path →
      fsGet (jsonSave env fs path t).1 q = fsGet fs q) ∧
    (∀ q, q ≠ path → q ≠ tmpPath path → q ≠ backupPath path env.now →
      fsGet (jsonSave env fs path t).1 q = fsGet fs q) := by
  obtain ⟨ha, hb, hc, hbak, habs, hframe⟩ :=
    backupThenWrite_happy env fs path
      (Content.jsonDoc (dictSet d t.id (todo_to_dict t))) h1 h2
  have hsa := jsonSaveAll_of_write_ok env fs path
    (dictSet d t.id (todo_to_dict t)) ha
  have heq : jsonSave env fs path t
      = ((backupThenWrite env fs path
          (Content.jsonDoc (dictSet d t.id (todo_to_dict t)))).1, .ok ()) := by
    simp only [jsonSave, hl, hsa]
  rw [heq]
  exact ⟨rfl, hb, hc, hbak, habs, hframe⟩

/-- delete of a present id on a loadable document with no injected write
failure: returns true and rewrites the document without the record, with
the same backup and frame behavior as save. -/
theorem jsonDelete_present_happy (env : Env) (fs : FS Content) (path id : String)
    (d : List (String × TodoDict))
    (h1 : env.tmpWriteErr = false) (h2 : env.replaceErr = false)
    (hl : jsonLoadAll env fs path = .ok d) (hh : dictHas d id = true) :
    (jsonDelete env fs path id).2 = .ok true ∧
    fsGet (jsonDelete env fs path id).1 path
      = some (Content.jsonDoc (dictErase d id)) ∧
    fsGet (jsonDelete env fs path id).1 (tmpPath path) = none ∧
    (∀ old, fsGet fs path = some old →
      fsGet (jsonDelete env fs path id).1 (backupPath path env.now) = some old) := by
  obtain ⟨ha, hb, hc, hbak, habs, hframe⟩ :=
    backupThenWrite_happy env fs path (Content.jsonDoc (dictErase d id)) h1 h2
  have hsa := jsonSaveAll_of_write_ok env fs path (dictErase d id) ha
  have heq : jsonDelete env fs path id
      = ((backupThenWrite env fs path (Content.jsonDoc (dictErase d id))).1,
         .ok true) := by
    simp only [jsonDelete, hl, hh, if_true, hsa]
  rw [heq]
  exact ⟨rfl, hb, hc, hbak⟩

/-- delete of an absent id returns false and performs no write at all. -/
theorem jsonDelete_absent (env : Env) (fs : FS Content) (path id : String)
    (d : List (String × TodoDict)) (hl : jsonLoadAll env fs path = .ok d)
    (hh : dictHas d id = false) :
    jsonDelete env fs path id = (fs, .ok false) := by
  simp only [jsonDelete, hl, hh, Bool.false_eq_true, if_false]

/-- find_by_id of an absent id returns None as a value. -/
theorem jsonFindById_absent (env : Env) (fs : FS Content) (path id : String)
    (d : List (String × TodoDict)) (hl : jsonLoadAll env fs path = .ok d)
    (hh : dictHas d id = false) :
    jsonFindById env fs path id = (fs, .ok none) := by
  have hg : dictGet d id = none := by
    rcases hg : dictGet d id with _ | v
    · rfl
    · rw [dictHas, hg] at hh
      simp at hh
  simp only [jsonFindById, hl, hg]

/-- exists of an absent id returns false as a value. -/
theorem jsonExistsOp_absent (env : Env) (fs : FS Content) (path id : String)
    (d : List (String × TodoDict)) (hl : jsonLoadAll env fs path = .ok d)
    (hh : dictHas d id = false) :
    jsonExistsOp env fs path id = (fs, .ok false) := by
  simp only [jsonExistsOp, jsonFindById_absent env fs path id d hl hh,
    Option.isSome_none]

/-- update of an absent id raises TodoNotFoundError, naming the id, and
leaves the filesystem untouched. -/
theorem jsonUpdate_absent (env : Env) (fs : FS Content) (path : String)
    (t : Todo) (d : List (String × TodoDict))
    (hl : jsonLoadAll env fs path = .ok d) (hh : dictHas d t.id = false) :
    jsonUpdate env fs path t = (fs, .error (.todoNotFound t.id)) := by
  simp only [jsonUpdate, jsonExistsOp_absent env fs path t.id d hl hh]

/-- update of a present id is exactly save. -/
theorem jsonUpdate_of_exists_true (env : Env) (fs : FS Content) (path : String)
    (t : Todo) (hx : (jsonExistsOp env fs path t.id).2 = .ok true) :
    jsonUpdate env fs path t = jsonSave env fs path t := by
  have hf := jsonExistsOp_fst env fs path t.id
  rcases hp : jsonExistsOp env fs path t.id with ⟨fs2, r⟩
  rw [hp] at hx hf
  simp only at hx hf
  subst hx
  subst hf
  simp only [jsonUpdate, hp]

/-- count of a loadable document returns its record count. -/
theorem jsonCount_of_doc (env : Env) (fs : FS Content) (path : String)
    (d : List (String × TodoDict)) (hl : jsonLoadAll env fs path = .ok d) :
    jsonCount env fs path = (fs, .ok d.length) := by
  simp only [jsonCount, hl]

/-- The XML loader succeeds on a well-formed document file. -/
theorem xmlLoadRoot_doc (env : Env) (fs : FS Content) (path : String)
    (d : List XmlTodoElem) (hre : env.readErr = none)
    (hfp : fsGet fs path = some (Content.xmlDoc d)) :
    xmlLoadRoot env fs path = .ok d := by
  simp [xmlLoadRoot, fsExists_eq, hfp, hre]

/-- The XML loader yields a fresh empty root for an absent file. -/
theorem xmlLoadRoot_absent (env : Env) (fs : FS Content) (path : String)
    (hfp : fsGet fs path = none) : xmlLoadRoot env fs path = .ok [] := by
  simp [xmlLoadRoot, fsExists_eq, hfp]

/-- Every XML loader failure is either the repository error kind (a parse
failure) or the raw OSError of an injected read failure. -/
theorem xmlLoadRoot_error_kinds (env : Env) (fs : FS Content) (path : String)
    (e : PyExc) (h : xmlLoadRoot env fs path = .error e) :
    e.isRepositoryError = true
      ∨ ∃ m, env.readErr = some m ∧ e = .osError m := by
  simp only [xmlLoadRoot] at h
  split at h
  · rcases hre : env.readErr with _ | m
    · rw [hre] at h
      rcases hfp : fsGet fs path with _ | c
      · rw [hfp] at h
        simp at h
      · rw [hfp] at h
        cases c with
        | xmlDoc d => simp at h
        | jsonDoc d =>
          simp only [Except.error.injEq] at h
          exact Or.inl (by rw [← h]; rfl)
        | jsonNonDict =>
          simp only [Except.error.injEq] at h
          exact Or.inl (by rw [← h]; rfl)
        | blank =>
          simp only [Except.error.injEq] at h
          exact Or.inl (by rw [← h]; rfl)
        | raw s =>
          simp only [Except.error.injEq] at h
          exact Or.inl (by rw [← h]; rfl)
    · rw [hre] at h
      simp only [Except.error.injEq] at h
      exact Or.inr ⟨m, rfl, h.symm⟩
  · simp at h

/-- An XML loader failure under a failure-free read oracle is the
repository error kind. -/
theorem xmlLoadRoot_error_repo (env : Env) (fs : FS Content) (path : String)
    (e : PyExc) (hre : env.readErr = none)
    (h : xmlLoadRoot env fs path = .error e) : e.isRepositoryError = true := by
  rcases xmlLoadRoot_error_kinds env fs path e h with hk | ⟨m, hm, _⟩
  · exact hk
  · rw [hre] at hm
    exact absurd hm (by simp)

/-- When the persist step raised no error, _save_xml_root returns the
written filesystem with success. -/
theorem xmlSaveRoot_of_write_ok (env : Env) (fs : FS Content) (path : String)
    (d : List XmlTodoElem)
    (h : (backupThenWrite env fs path (Content.xmlDoc d)).2 = none) :
    xmlSaveRoot env fs path d
      = ((backupThenWrite env fs path (Content.xmlDoc d)).1, .ok ()) := by
  simp only [xmlSaveRoot]
  rcases hbw : backupThenWrite env fs path (Content.xmlDoc d) with ⟨fs2, me⟩
  rw [hbw] at h
  cases me with
  | none => rfl
  | some m => simp at h

/-- Every _save_xml_root failure surfaces as the repository error kind. -/
theorem xmlSaveRoot_error_repo (env : Env) (fs : FS Content) (path : String)
    (d : List XmlTodoElem) (e : PyExc)
    (h : (xmlSaveRoot env fs path d).2 = .error e) :
    e.isRepositoryError = true := by
  simp only [xmlSaveRoot] at h
  rcases hbw : backupThenWrite env fs path (Content.xmlDoc d) with ⟨fs2, me⟩
  rw [hbw] at h
  cases me with
  | none => simp at h
  | some m =>
    simp only [Except.error.injEq] at h
    rw [← h]
    rfl

/-- XML find_by_id never writes. -/
theorem xmlFindById_fst (env : Env) (fs : FS Content) (path id : String) :
    (xmlFindById env fs path id).1 = fs := by
  simp only [xmlFindById]
  split
  · rfl
  · split
    · rfl
    · split <;> rfl

/-- XML find_all never writes. -/
theorem xmlFindAll_fst (env : Env) (fs : FS Content) (path : String) :
    (xmlFindAll env fs path).1 = fs := by
  simp only [xmlFindAll]
  split
  · rfl
  · split <;> rfl

/-- XML exists never writes. -/
theorem xmlExistsOp_fst (env : Env) (fs : FS Content) (path id : String) :
    (xmlExistsOp env fs path id).1 = fs := by
  have hf := xmlFindById_fst env fs path id
  simp only [xmlExistsOp]
  rcases hp : xmlFindById env fs path id with ⟨fs2, r⟩
  rw [hp] at hf
  cases r <;> simpa using hf

/-- XML count never writes. -/
theorem xmlCount_fst (env : Env) (fs : FS Content) (path : String) :
    (xmlCount env fs path).1 = fs := by
  simp only [xmlCount]
  split <;> rfl

/-- Every XML find_by_id failure is the wrapped repository error kind. -/
theorem xmlFindById_error_repo (env : Env) (fs : FS Content) (path id : String)
    (e : PyExc) (h : (xmlFindById env fs path id).2 = .error e) :
    e.isRepositoryError = true := by
  simp only [xmlFindById] at h
  split at h
  · simp only [Except.error.injEq] at h
    rw [← h]
    rfl
  · split at h
    · simp at h
    · split at h
      · simp only [Except.error.injEq] at h
        rw [← h]
        rfl
      · simp at h

/-- Every XML find_all failure is the wrapped repository error kind. -/
theorem xmlFindAll_error_repo (env : Env) (fs : FS Content) (path : String)
    (e : PyExc) (h : (xmlFindAll env fs path).2 = .error e) :
    e.isRepositoryError = true := by
  simp only [xmlFindAll] at h
  split at h
  · simp only [Except.error.injEq] at h
    rw [← h]
    rfl
  · split at h
    · simp only [Except.error.injEq] at h
      rw [← h]
      rfl
    · simp at h

/-- Every XML save failure is the wrapped repository error kind. -/
theorem xmlSave_error_repo (env : Env) (fs : FS Content) (path : String)
    (t : Todo) (e : PyExc) (h : (xmlSave env fs path t).2 = .error e) :
    e.isRepositoryError = true := by
  simp only [xmlSave] at h
  split at h
  · simp only [Except.error.injEq] at h
    rw [← h]
    rfl
  · split at h
    · simp only [Except.error.injEq] at h
      rw [← h]
      rfl
    · simp at h

/-- Every XML delete failure is the wrapped repository error kind. -/
theorem xmlDelete_error_repo (env : Env) (fs : FS Content) (path id : String)
    (e : PyExc) (h : (xmlDelete env fs path id).2 = .error e) :
    e.isRepositoryError = true := by
  simp only [xmlDelete] at h
  split at h
  · simp only [Except.error.injEq] at h
    rw [← h]
    rfl
  · split at h
    · split at h
      · simp only [Except.error.injEq] at h
        rw [← h]
        rfl
      · simp at h
    · simp at h

/-- Every XML exists failure is the wrapped repository error kind. -/
theorem xmlExistsOp_error_repo (env : Env) (fs : FS Content) (path id : String)
    (e : PyExc) (h : (xmlExistsOp env fs path id).2 = .error e) :
    e.isRepositoryError = true := by
  simp only [xmlExistsOp] at h
  rcases hp : xmlFindById env fs path id with ⟨fs2, r⟩
  rw [hp] at h
  cases r with
  | error e2 =>
    simp only [Except.error.injEq] at h
    rw [← h]
    exact xmlFindById_error_repo env fs path id e2 (by rw [hp])
  | ok r2 => simp at h

/-- XML save on a loadable document with no injected write failure. -/
theorem xmlSave_happy (env : Env) (fs : FS Content) (path : String)
    (t : Todo) (root : List XmlTodoElem)
    (h1 : env.tmpWriteErr = false) (h2 : env.replaceErr = false)
    (hl : xmlLoadRoot env fs path = .ok root) :
    (xmlSave env fs path t).2 = .ok () ∧
    fsGet (xmlSave env fs path t).1 path
      = some (Content.xmlDoc ((root.filter (fun el => !(xmlMatchesId el t.id)))
          ++ [todo_to_xml_element t])) ∧
    fsGet (xmlSave env fs path t).1 (tmpPath path) = none ∧
    (∀ old, fsGet fs path = some old →
      fsGet (xmlSave env fs path t).1 (backupPath path env.now) = some old) ∧
    (fsGet fs path = none → ∀ q, q ≠ path → q ≠ tmpPath path →
      fsGet (xmlSave env fs path t).1 q = fsGet fs q) := by
  obtain ⟨ha, hb, hc, hbak, habs, hframe⟩ :=
    backupThenWrite_happy env fs path
      (Content.xmlDoc ((root.filter (fun el => !(xmlMatchesId el t.id)))
        ++ [todo_to_xml_element t])) h1 h2
  have hsa := xmlSaveRoot_of_write_ok env fs path
    ((root.filter (fun el => !(xmlMatchesId el t.id)))
      ++ [todo_to_xml_element t]) ha
  have heq : xmlSave env fs path t
      = ((backupThenWrite env fs path
          (Content.xmlDoc ((root.filter (fun el => !(xmlMatchesId el t.id)))
            ++ [todo_to_xml_element t]))).1, .ok ()) := by
    simp only [xmlSave, hl, hsa]
  rw [heq]
  exact ⟨rfl, hb, hc, hbak, habs⟩

/-- XML delete of a present id with no injected write failure: returns
true and rewrites the document without the first matching element. -/
theorem xmlDelete_present_happy (env : Env) (fs : FS Content) (path id : String)
    (root : List XmlTodoElem) (x : XmlTodoElem)
    (h1 : env.tmpWriteErr = false) (h2 : env.replaceErr = false)
    (hl : xmlLoadRoot env fs path = .ok root)
    (hfind : root.find? (fun el => xmlMatchesId el id) = some x) :
    (xmlDelete env fs path id).2 = .ok true ∧
    fsGet (xmlDelete env fs path id).1 path
      = some (Content.xmlDoc (eraseFirst (fun el => xmlMatchesId el id) root)) ∧
    (∀ old, fsGet fs path = some old →
      fsGet (xmlDelete env fs path id).1 (backupPath path env.now) = some old) := by
  obtain ⟨ha, hb, hc, hbak, habs, hframe⟩ :=
    backupThenWrite_happy env fs path
      (Content.xmlDoc (eraseFirst (fun el => xmlMatchesId el id) root)) h1 h2
  have hsa := xmlSaveRoot_of_write_ok env fs path
    (eraseFirst (fun el => xmlMatchesId el id) root) ha
  have heq : xmlDelete env fs path id
      = ((backupThenWrite env fs path
          (Content.xmlDoc (eraseFirst (fun el => xmlMatchesId el id) root))).1,
         .ok true) := by
    simp only [xmlDelete, hl, hfind, hsa]
  rw [heq]
  exact ⟨rfl, hb, hbak⟩

/-- XML delete of an absent id returns false and performs no write. -/
theorem xmlDelete_absent (env : Env) (fs : FS Content) (path id : String)
    (root : List XmlTodoElem) (hl : xmlLoadRoot env fs path = .ok root)
    (hfind : root.find? (fun el => xmlMatchesId el id) = none) :
    xmlDelete env fs path id = (fs, .ok false) := by
  simp only [xmlDelete, hl, hfind]

/-- XML find_by_id of an absent id returns None as a value. -/
theorem xmlFindById_absent (env : Env) (fs : FS Content) (path id : String)
    (root : List XmlTodoElem) (hl : xmlLoadRoot env fs path = .ok root)
    (hfind : root.find? (fun el => xmlMatchesId el id) = none) :
    xmlFindById env fs path id = (fs, .ok none) := by
  simp only [xmlFindById, hl, hfind]

/-- XML exists of an absent id returns false as a value. -/
theorem xmlExistsOp_absent (env : Env) (fs : FS Content) (path id : String)
    (root : List XmlTodoElem) (hl : xmlLoadRoot env fs path = .ok root)
    (hfind : root.find? (fun el => xmlMatchesId el id) = none) :
    xmlExistsOp env fs path id = (fs, .ok false) := by
  simp only [xmlExistsOp, xmlFindById_absent env fs path id root hl hfind,
    Option.isSome_none]

/-- XML update of an absent id raises TodoNotFoundError and leaves the
filesystem untouched. -/
theorem xmlUpdate_absent (env : Env) (fs : FS Content) (path : String)
    (t : Todo) (root : List XmlTodoElem)
    (hl : xmlLoadRoot env fs path = .ok root)
    (hfind : root.find? (fun el => xmlMatchesId el t.id) = none) :
    xmlUpdate env fs path t = (fs, .error (.todoNotFound t.id)) := by
  simp only [xmlUpdate, xmlExistsOp_absent env fs path t.id root hl hfind]

/-- XML update of a present id is exactly save. -/
theorem xmlUpdate_of_exists_true (env : Env) (fs : FS Content) (path : String)
    (t : Todo) (hx : (xmlExistsOp env fs path t.id).2 = .ok true) :
    xmlUpdate env fs path t = xmlSave env fs path t := by
  have hf := xmlExistsOp_fst env fs path t.id
  rcases hp : xmlExistsOp env fs path t.id with ⟨fs2, r⟩
  rw [hp] at hx hf
  simp only at hx hf
  subst hx
  subst hf
  simp only [xmlUpdate, hp]

/-- XML count of a loadable document returns its todo element count. -/
theorem xmlCount_of_doc (env : Env) (fs : FS Content) (path : String)
    (root : List XmlTodoElem) (hl : xmlLoadRoot env fs path = .ok root) :
    xmlCount env fs path
      = (fs, .ok (root.filter (fun el => decide (el.tag = "todo"))).length) := by
  simp only [xmlCount, hl]

/-- C2: for both stores, update of an absent id fails with the
TodoNotFoundError carrying (and rendering) the offending id while leaving
the filesystem untouched; update of a present id is exactly save; and
find_by_id, exists and delete never surface the not-found kind — their
failures are always the wrapped repository error, and an absent id is
returned as a normal value (None or false). -/
theorem update_requires_existing_id (env : Env) (fs : FS Content)
    (path : String) (t : Todo) (id : String)
    (d : List (String × TodoDict)) (root : List XmlTodoElem) :
    (jsonLoadAll env fs path = .ok d → dictHas d t.id = false →
      jsonUpdate env fs path t = (fs, .error (.todoNotFound t.id))) ∧
    ((jsonExistsOp env fs path t.id).2 = .ok true →
      jsonUpdate env fs path t = jsonSave env fs path t) ∧
    ((PyExc.todoNotFound t.id).str
      = "Todo with id \x27" ++ t.id ++ "\x27 not found") ∧
    (∀ e, (jsonFindById env fs path id).2 = .error e →
      e.isRepositoryError = true) ∧
    (∀ e, (jsonExistsOp env fs path id).2 = .error e →
      e.isRepositoryError = true) ∧
    (∀ e, (jsonDelete env fs path id).2 = .error e →
      e.isRepositoryError = true) ∧
    (jsonLoadAll env fs path = .ok d → dictHas d id = false →
      jsonFindById env fs path id = (fs, .ok none) ∧
      jsonExistsOp env fs path id = (fs, .ok false) ∧
      jsonDelete env fs path id = (fs, .ok false)) ∧
    (xmlLoadRoot env fs path = .ok root →
      root.find? (fun el => xmlMatchesId el t.id) = none →
      xmlUpdate env fs path t = (fs, .error (.todoNotFound t.id))) ∧
    ((xmlExistsOp env fs path t.id).2 = .ok true →
      xmlUpdate env fs path t = xmlSave env fs path t) ∧
    (∀ e, (xmlFindById env fs path id).2 = .error e →
      e.isRepositoryError = true) ∧
    (∀ e, (xmlExistsOp env fs path id).2 = .error e →
      e.isRepositoryError = true) ∧
    (∀ e, (xmlDelete env fs path id).2 = .error e →
      e.isRepositoryError = true) ∧
    (xmlLoadRoot env fs path = .ok root →
      root.find? (fun el => xmlMatchesId el id) = none →
      xmlFindById env fs path id = (fs, .ok none) ∧
      xmlExistsOp env fs path id = (fs, .ok false) ∧
      xmlDelete env fs path id = (fs, .ok false)) :=
  ⟨fun hl hh => jsonUpdate_absent env fs path t d hl hh,
   fun hx => jsonUpdate_of_exists_true env fs path t hx,
   rfl,
   fun e he => jsonFindById_error_repo env fs path id e he,
   fun e he => jsonExistsOp_error_repo env fs path id e he,
   fun e he => jsonDelete_error_repo env fs path id e he,
   fun hl hh => ⟨jsonFindById_absent env fs path id d hl hh,
     jsonExistsOp_absent env fs path id d hl hh,
     jsonDelete_absent env fs path id d hl hh⟩,
   fun hl hf => xmlUpdate_absent env fs path t root hl hf,
   fun hx => xmlUpdate_of_exists_true env fs path t hx,
   fun e he => xmlFindById_error_repo env fs path id e he,
   fun e he => xmlExistsOp_error_repo env fs path id e he,
   fun e he => xmlDelete_error_repo env fs path id e he,
   fun hl hf => ⟨xmlFindById_absent env fs path id root hl hf,
     xmlExistsOp_absent env fs path id root hl hf,
     xmlDelete_absent env fs path id root hl hf⟩⟩

/-- C2 witness: updating an id absent from the three-record document fails
with the not-found error naming that id and leaves the store unchanged. -/
theorem update_requires_existing_id_witness :
    jsonUpdate envH fsJson3 "todos.json" task9
      = (fsJson3, .error (.todoNotFound "id9")) :=
  (update_requires_existing_id envH fsJson3 "todos.json" task9 "id9"
    jsonDoc3 []).1 (by decide) (by decide)

/-- A count failure is exactly a loader failure (count has no wrapper). -/
theorem jsonCount_error_eq (env : Env) (fs : FS Content) (path : String)
    (e : PyExc) (h : (jsonCount env fs path).2 = .error e) :
    jsonLoadAll env fs path = .error e := by
  simp only [jsonCount] at h
  split at h
  · next e0 heq =>
    simp only [Except.error.injEq] at h
    rw [heq, h]
  · simp at h

/-- An XML count failure is exactly a loader failure. -/
theorem xmlCount_error_eq (env : Env) (fs : FS Content) (path : String)
    (e : PyExc) (h : (xmlCount env fs path).2 = .error e) :
    xmlLoadRoot env fs path = .error e := by
  simp only [xmlCount] at h
  split at h
  · next e0 heq =>
    simp only [Except.error.injEq] at h
    rw [heq, h]
  · simp at h

/-- C6 (amended): for both stores, every failure of save, find_by_id,
find_all and delete surfaces as the single wrapped repository error kind;
count wraps parse and format failures (the loader itself raises the
repository error for those) but, lacking its own try/except, propagates a
raw read I/O failure unchanged — so its guarantee holds only under a
failure-free read oracle. -/
theorem repository_errors_wrapped (env : Env) (fs : FS Content)
    (path : String) (t : Todo) (id : String) :
    (∀ e, (jsonSave env fs path t).2 = .error e →
      e.isRepositoryError = true) ∧
    (∀ e, (jsonFindById env fs path id).2 = .error e →
      e.isRepositoryError = true) ∧
    (∀ e, (jsonFindAll env fs path).2 = .error e →
      e.isRepositoryError = true) ∧
    (∀ e, (jsonDelete env fs path id).2 = .error e →
      e.isRepositoryError = true) ∧
    (∀ e, (xmlSave env fs path t).2 = .error e →
      e.isRepositoryError = true) ∧
    (∀ e, (xmlFindById env fs path id).2 = .error e →
      e.isRepositoryError = true) ∧
    (∀ e, (xmlFindAll env fs path).2 = .error e →
      e.isRepositoryError = true) ∧
    (∀ e, (xmlDelete env fs path id).2 = .error e →
      e.isRepositoryError = true) ∧
    (env.readErr = none → ∀ e, (jsonCount env fs path).2 = .error e →
      e.isRepositoryError = true) ∧
    (env.readErr = none → ∀ e, (xmlCount env fs path).2 = .error e →
      e.isRepositoryError = true) :=
  ⟨fun e he => jsonSave_error_repo env fs path t e he,
   fun e he => jsonFindById_error_repo env fs path id e he,
   fun e he => jsonFindAll_error_repo env fs path e he,
   fun e he => jsonDelete_error_repo env fs path id e he,
   fun e he => xmlSave_error_repo env fs path t e he,
   fun e he => xmlFindById_error_repo env fs path id e he,
   fun e he => xmlFindAll_error_repo env fs path e he,
   fun e he => xmlDelete_error_repo env fs path id e he,
   fun hre e he =>
     jsonLoadAll_error_repo env fs path e hre (jsonCount_error_eq env fs path e he),
   fun hre e he =>
     xmlLoadRoot_error_repo env fs path e hre (xmlCount_error_eq env fs path e he)⟩

/-- C6 witness: a save whose read fails surfaces as the wrapped kind. -/
theorem repository_errors_wrapped_witness :
    (PyExc.repositoryError
      ("Failed to save todo: " ++ (PyExc.osError "Permission denied").str)).isRepositoryError
      = true :=
  (repository_errors_wrapped envRead jsonFs0 "todos.json" task1 "id1").1
    (PyExc.repositoryError
      ("Failed to save todo: " ++ (PyExc.osError "Permission denied").str))
    (by decide)

/-- C6 counterexample: count propagates a raw OSError unchanged in both
stores — the caller sees an error that is not the wrapped repository
kind, contradicting the claim that count only surfaces the wrapped kind. -/
theorem count_leaks_raw_os_error :
    (jsonCount envRead jsonFs0 "todos.json").2
      = .error (.osError "Permission denied") ∧
    (xmlCount envRead fsXml3 "todos.xml").2
      = .error (.osError "Permission denied") ∧
    (PyExc.osError "Permission denied").isRepositoryError = false := by
  refine ⟨by decide, by decide, by decide⟩

/-- C10: for both stores, find_by_id, find_all, exists and count return
the filesystem exactly as given (no write, no backup, no temp file), as
does delete of an absent id; save and delete of a present id are the
operations that rewrite the document (shown on the failure-free write
path). -/
theorem read_ops_leave_fs_unchanged (env : Env) (fs : FS Content)
    (path id : String) (t : Todo) (d : List (String × TodoDict))
    (root : List XmlTodoElem) :
    (jsonFindById env fs path id).1 = fs ∧
    (jsonFindAll env fs path).1 = fs ∧
    (jsonExistsOp env fs path id).1 = fs ∧
    (jsonCount env fs path).1 = fs ∧
    (xmlFindById env fs path id).1 = fs ∧
    (xmlFindAll env fs path).1 = fs ∧
    (xmlExistsOp env fs path id).1 = fs ∧
    (xmlCount env fs path).1 = fs ∧
    (jsonLoadAll env fs path = .ok d → dictHas d id = false →
      (jsonDelete env fs path id).1 = fs) ∧
    (xmlLoadRoot env fs path = .ok root →
      root.find? (fun el => xmlMatchesId el id) = none →
      (xmlDelete env fs path id).1 = fs) ∧
    (env.tmpWriteErr = false → env.replaceErr = false →
      (jsonLoadAll env fs path = .ok d →
        fsGet (jsonSave env fs path t).1 path
          = some (Content.jsonDoc (dictSet d t.id (todo_to_dict t))) ∧
        (dictHas d id = true →
          fsGet (jsonDelete env fs path id).1 path
            = some (Content.jsonDoc (dictErase d id)))) ∧
      (xmlLoadRoot env fs path = .ok root →
        fsGet (xmlSave env fs path t).1 path
          = some (Content.xmlDoc
              ((root.filter (fun el => !(xmlMatchesId el t.id)))
                ++ [todo_to_xml_element t])))) := by
  refine ⟨jsonFindById_fst env fs path id, jsonFindAll_fst env fs path,
    jsonExistsOp_fst env fs path id, jsonCount_fst env fs path,
    xmlFindById_fst env fs path id, xmlFindAll_fst env fs path,
    xmlExistsOp_fst env fs path id, xmlCount_fst env fs path,
    ?_, ?_, ?_⟩
  · intro hl hh
    rw [jsonDelete_absent env fs path id d hl hh]
  · intro hl hf
    rw [xmlDelete_absent env fs path id root hl hf]
  · intro h1 h2
    refine ⟨?_, ?_⟩
    · intro hl
      refine ⟨(jsonSave_happy env fs path t d h1 h2 hl).2.1, ?_⟩
      intro hh
      exact (jsonDelete_present_happy env fs path id d h1 h2 hl hh).2.1
    · intro hl
      exact (xmlSave_happy env fs path t root h1 h2 hl).2.1

/-- C10 witness: deleting an absent id from the three-record store leaves
the filesystem exactly as it was. -/
theorem read_ops_leave_fs_unchanged_witness :
    (jsonDelete envH fsJson3 "todos.json" "id9").1 = fsJson3 :=
  (read_ops_leave_fs_unchanged envH fsJson3 "todos.json" "id9" task1
    jsonDoc3 []).2.2.2.2.2.2.2.2.1 (by decide) (by decide)

/-- The happy oracle has no injected failure of any kind. -/
theorem happy_fields (env : Env) (hap : env.happy = true) :
    env.readErr = none ∧ env.tmpWriteErr = false ∧ env.replaceErr = false := by
  simp only [Env.happy, Bool.and_eq_true, Bool.not_eq_true', Option.isNone_iff_eq_none] at hap
  exact ⟨hap.1.1, hap.1.2, hap.2⟩

/-- C4: save is an upsert by id for both stores.  On any loadable document
(duplicate-free for the JSON dict, as json.loads guarantees) a save
succeeds whether or not the id is already present, the rewritten document
holds exactly one record for that id carrying the encoded task, and a
second save of a task with the same id still succeeds and still leaves
exactly one record, now with the latest field values. -/
theorem save_is_upsert (env : Env) (path : String) (t t2 : Todo)
    (hap : env.happy = true) :
    (∀ (fs : FS Content) (d : List (String × TodoDict)),
      jsonLoadAll env fs path = .ok d → (d.map Prod.fst).Nodup →
      (jsonSave env fs path t).2 = .ok () ∧
      fsGet (jsonSave env fs path t).1 path
        = some (Content.jsonDoc (dictSet d t.id (todo_to_dict t))) ∧
      countKey (dictSet d t.id (todo_to_dict t)) t.id = 1 ∧
      dictGet (dictSet d t.id (todo_to_dict t)) t.id = some (todo_to_dict t) ∧
      (jsonSave env (jsonSave env fs path t).1 path t2).2 = .ok () ∧
      fsGet (jsonSave env (jsonSave env fs path t).1 path t2).1 path
        = some (Content.jsonDoc (dictSet (dictSet d t.id (todo_to_dict t))
            t2.id (todo_to_dict t2))) ∧
      countKey (dictSet (dictSet d t.id (todo_to_dict t)) t2.id
        (todo_to_dict t2)) t2.id = 1 ∧
      dictGet (dictSet (dictSet d t.id (todo_to_dict t)) t2.id
        (todo_to_dict t2)) t2.id = some (todo_to_dict t2)) ∧
    (∀ (fs : FS Content) (root : List XmlTodoElem),
      xmlLoadRoot env fs path = .ok root →
      (xmlSave env fs path t).2 = .ok () ∧
      fsGet (xmlSave env fs path t).1 path
        = some (Content.xmlDoc ((root.filter (fun el => !(xmlMatchesId el t.id)))
            ++ [todo_to_xml_element t])) ∧
      countXmlId ((root.filter (fun el => !(xmlMatchesId el t.id)))
        ++ [todo_to_xml_element t]) t.id = 1 ∧
      ((root.filter (fun el => !(xmlMatchesId el t.id)))
        ++ [todo_to_xml_element t]).find? (fun el => xmlMatchesId el t.id)
        = some (todo_to_xml_element t) ∧
      (xmlSave env (xmlSave env fs path t).1 path t2).2 = .ok () ∧
      countXmlId ((((root.filter (fun el => !(xmlMatchesId el t.id)))
          ++ [todo_to_xml_element t]).filter (fun el => !(xmlMatchesId el t2.id)))
        ++ [todo_to_xml_element t2]) t2.id = 1 ∧
      ((((root.filter (fun el => !(xmlMatchesId el t.id)))
          ++ [todo_to_xml_element t]).filter (fun el => !(xmlMatchesId el t2.id)))
        ++ [todo_to_xml_element t2]).find? (fun el => xmlMatchesId el t2.id)
        = some (todo_to_xml_element t2)) := by
  obtain ⟨hre, h1, h2⟩ := happy_fields env hap
  constructor
  · intro fs d hl hnd
    obtain ⟨ha, hb, hc, _, _, _⟩ := jsonSave_happy env fs path t d h1 h2 hl
    have hl2 : jsonLoadAll env (jsonSave env fs path t).1 path
        = .ok (dictSet d t.id (todo_to_dict t)) :=
      jsonLoadAll_doc env (jsonSave env fs path t).1 path _ hre hb
    obtain ⟨ha2, hb2, _, _, _, _⟩ :=
      jsonSave_happy env (jsonSave env fs path t).1 path t2 _ h1 h2 hl2
    exact ⟨ha, hb, countKey_dictSet d t.id _ hnd,
      dictGet_dictSet_self d t.id _, ha2, hb2,
      countKey_dictSet _ t2.id _ (nodup_keys_dictSet d t.id _ hnd),
      dictGet_dictSet_self _ t2.id _⟩
  · intro fs root hl
    obtain ⟨ha, hb, hc, _, _⟩ := xmlSave_happy env fs path t root h1 h2 hl
    have hl2 : xmlLoadRoot env (xmlSave env fs path t).1 path
        = .ok ((root.filter (fun el => !(xmlMatchesId el t.id)))
            ++ [todo_to_xml_element t]) :=
      xmlLoadRoot_doc env (xmlSave env fs path t).1 path _ hre hb
    obtain ⟨ha2, hb2, _, _, _⟩ :=
      xmlSave_happy env (xmlSave env fs path t).1 path t2 _ h1 h2 hl2
    exact ⟨ha, hb, countXmlId_save root t, find_after_xml_save root t,
      ha2, countXmlId_save _ t2, find_after_xml_save _ t2⟩

/-- C4 witness: saving a task whose id already sits in the three-record
document succeeds, and the resulting document holds exactly one record
for that id. -/
theorem save_is_upsert_witness :
    (jsonSave envH fsJson3 "todos.json" task1).2 = .ok () ∧
    countKey (dictSet jsonDoc3 task1.id (todo_to_dict task1)) task1.id = 1 :=
  ⟨((save_is_upsert envH "todos.json" task1 task1b (by decide)).1
      fsJson3 jsonDoc3 (by decide) (by decide)).1,
   ((save_is_upsert envH "todos.json" task1 task1b (by decide)).1
      fsJson3 jsonDoc3 (by decide) (by decide)).2.2.1⟩

/-- C7 (amended): the store constructor itself creates the data file (with
the serialized empty document) and makes no backup; after that, every
save with the data file present — the first included — copies the
pre-write content to the timestamped backup, and a save with the file
absent creates no backup (it touches nothing but the data file and the
transient temp file). -/
theorem backup_written_iff_file_exists (env : Env) (fs : FS Content)
    (path : String) (t : Todo) (d : List (String × TodoDict)) (c : Content)
    (h1 : env.tmpWriteErr = false) (h2 : env.replaceErr = false)
    (hl : jsonLoadAll env fs path = .ok d) :
    (fsGet fs path = none →
      fsGet (jsonInit fs path) path = some (Content.jsonDoc []) ∧
      ∀ q, q ≠ path → fsGet (jsonInit fs path) q = fsGet fs q) ∧
    (fsGet fs path = some c →
      (jsonSave env fs path t).2 = .ok () ∧
      fsGet (jsonSave env fs path t).1 (backupPath path env.now) = some c) ∧
    (fsGet fs path = none →
      (jsonSave env fs path t).2 = .ok () ∧
      fsGet (jsonSave env fs path t).1 (tmpPath path) = none ∧
      ∀ q, q ≠ path → q ≠ tmpPath path →
        fsGet (jsonSave env fs path t).1 q = fsGet fs q) := by
  obtain ⟨ha, hb, hc, hbak, habs, hframe⟩ := jsonSave_happy env fs path t d h1 h2 hl
  refine ⟨?_, fun hfp => ⟨ha, hbak c hfp⟩, fun hfp => ⟨ha, hc, habs hfp⟩⟩
  intro hfp
  have hex : fsExists fs path = false := by
    rw [fsExists_eq, hfp]
    rfl
  constructor
  · simp only [jsonInit, hex, Bool.false_eq_true, if_false]
    exact fsGet_fsSet_self fs path (Content.jsonDoc [])
  · intro q hq
    simp only [jsonInit, hex, Bool.false_eq_true, if_false]
    exact fsGet_fsSet_ne fs path q (Content.jsonDoc []) hq

/-- C7 witness: with the data file present (holding the empty document the
constructor wrote), a save succeeds and the backup holds exactly the
pre-write content. -/
theorem backup_written_iff_file_exists_witness :
    (jsonSave envH jsonFs0 "todos.json" task1).2 = .ok () ∧
    fsGet (jsonSave envH jsonFs0 "todos.json" task1).1
      (backupPath "todos.json" envH.now) = some (Content.jsonDoc []) :=
  (backup_written_iff_file_exists envH jsonFs0 "todos.json" task1 []
    (Content.jsonDoc []) rfl rfl (by decide)).2.1 (by decide)

/-- C7 counterexample: starting from an empty directory the constructor
creates the data file, so the very first save already finds the file
present and produces a backup (of the empty document) — contradicting
the claim that the first save creates the file with no backup. -/
theorem first_save_already_makes_backup :
    fsGet jsonFs0 "todos.json" = some (Content.jsonDoc []) ∧
    (jsonSave envH jsonFs0 "todos.json" task1).2 = .ok () ∧
    fsGet (jsonSave envH jsonFs0 "todos.json" task1).1
      (backupPath "todos.json" "20240101_000000")
      = some (Content.jsonDoc []) := by
  refine ⟨by decide, by decide, by decide⟩

/-- Elements surviving eraseFirst come from the original list. -/
theorem mem_eraseFirst {α : Type} (p : α → Bool) (l : List α) (x : α)
    (h : x ∈ eraseFirst p l) : x ∈ l := by
  induction l with
  | nil => simp [eraseFirst] at h
  | cons y rest ih =>
    simp only [eraseFirst] at h
    by_cases hy : p y = true
    · rw [if_pos hy] at h
      exact List.mem_cons_of_mem y h
    · rw [if_neg hy] at h
      rcases List.mem_cons.mp h with h | h
      · exact h ▸ List.mem_cons_self y rest
      · exact List.mem_cons_of_mem y (ih h)

/-- C8: for both stores on a loadable document, delete returns true
exactly on a present id — removing the record, rewriting the document,
leaving count at one less and find_by_id for the id absent — and returns
false without raising (and without writing) on an absent id. -/
theorem delete_contract (env : Env) (path id : String)
    (hap : env.happy = true) :
    (∀ (fs : FS Content) (d : List (String × TodoDict)),
      jsonLoadAll env fs path = .ok d → (d.map Prod.fst).Nodup →
      (dictHas d id = true →
        (jsonDelete env fs path id).2 = .ok true ∧
        fsGet (jsonDelete env fs path id).1 path
          = some (Content.jsonDoc (dictErase d id)) ∧
        (dictErase d id).length + 1 = d.length ∧
        jsonCount env (jsonDelete env fs path id).1 path
          = ((jsonDelete env fs path id).1, .ok (dictErase d id).length) ∧
        jsonFindById env (jsonDelete env fs path id).1 path id
          = ((jsonDelete env fs path id).1, .ok none)) ∧
      (dictHas d id = false → jsonDelete env fs path id = (fs, .ok false))) ∧
    (∀ (fs : FS Content) (root : List XmlTodoElem),
      xmlLoadRoot env fs path = .ok root →
      (∀ x, root.find? (fun el => xmlMatchesId el id) = some x →
        (xmlDelete env fs path id).2 = .ok true ∧
        fsGet (xmlDelete env fs path id).1 path
          = some (Content.xmlDoc (eraseFirst (fun el => xmlMatchesId el id) root)) ∧
        (eraseFirst (fun el => xmlMatchesId el id) root).length + 1
          = root.length ∧
        ((∀ el ∈ root, el.tag = "todo") →
          xmlCount env (xmlDelete env fs path id).1 path
            = ((xmlDelete env fs path id).1,
               .ok (eraseFirst (fun el => xmlMatchesId el id) root).length)) ∧
        (countXmlId root id ≤ 1 →
          xmlFindById env (xmlDelete env fs path id).1 path id
            = ((xmlDelete env fs path id).1, .ok none))) ∧
      (root.find? (fun el => xmlMatchesId el id) = none →
        xmlDelete env fs path id = (fs, .ok false))) := by
  obtain ⟨hre, h1, h2⟩ := happy_fields env hap
  constructor
  · intro fs d hl hnd
    constructor
    · intro hh
      obtain ⟨ha, hb, hc, _⟩ := jsonDelete_present_happy env fs path id d h1 h2 hl hh
      have hl2 : jsonLoadAll env (jsonDelete env fs path id).1 path
          = .ok (dictErase d id) :=
        jsonLoadAll_doc env (jsonDelete env fs path id).1 path _ hre hb
      have hh2 : dictHas (dictErase d id) id = false := by
        rw [dictHas, dictGet_dictErase_self d id hnd]
        rfl
      exact ⟨ha, hb, length_dictErase d id hh,
        jsonCount_of_doc env _ path _ hl2,
        jsonFindById_absent env _ path id _ hl2 hh2⟩
    · intro hh
      exact jsonDelete_absent env fs path id d hl hh
  · intro fs root hl
    constructor
    · intro x hfind
      obtain ⟨ha, hb, _⟩ :=
        xmlDelete_present_happy env fs path id root x h1 h2 hl hfind
      have hl2 : xmlLoadRoot env (xmlDelete env fs path id).1 path
          = .ok (eraseFirst (fun el => xmlMatchesId el id) root) :=
        xmlLoadRoot_doc env (xmlDelete env fs path id).1 path _ hre hb
      refine ⟨ha, hb, length_eraseFirst _ root x hfind, ?_, ?_⟩
      · intro hall
        have hfe : (eraseFirst (fun el => xmlMatchesId el id) root).filter
            (fun el => decide (el.tag = "todo"))
            = eraseFirst (fun el => xmlMatchesId el id) root := by
          rw [List.filter_eq_self]
          intro a hma
          simp only [decide_eq_true_eq]
          exact hall a (mem_eraseFirst _ root a hma)
        rw [xmlCount_of_doc env _ path _ hl2, hfe]
      · intro hcount
        have hfn : (eraseFirst (fun el => xmlMatchesId el id) root).find?
            (fun el => xmlMatchesId el id) = none :=
          find_eraseFirst_eq_none _ root hcount
        exact xmlFindById_absent env _ path id _ hl2 hfn
    · intro hfind
      exact xmlDelete_absent env fs path id root hl hfind

/-- C8 witness: deleting a present id from the three-record document
returns true, rewrites the document and leaves two records. -/
theorem delete_contract_witness :
    (jsonDelete envH fsJson3 "todos.json" "id2").2 = .ok true ∧
    (dictErase jsonDoc3 "id2").length + 1 = jsonDoc3.length :=
  ⟨(((delete_contract envH "todos.json" "id2" (by decide)).1 fsJson3 jsonDoc3
      (by decide) (by decide)).1 (by decide)).1,
   (((delete_contract envH "todos.json" "id2" (by decide)).1 fsJson3 jsonDoc3
      (by decide) (by decide)).1 (by decide)).2.2.1⟩

end TodoApp
